import Mathlib

/-!
# ltar_archive.c: a streaming reader of ustar archives

A shallow embedding of `src/ltar_archive.c` (the native part of a Lua tar
reader) and theorems about it.

Conventions of the embedding.

* A byte is a `Nat` holding its unsigned value (`0..255`); memory and file
  contents are `List Nat`.
* The C data model is LP64: `int` has 32 bits, `long` and `size_t` have 64.
  Arithmetic on `int` wraps in two's complement (`wrapInt`), arithmetic on
  `size_t` is taken modulo `2^64`.
* The loop of `ltar_entries` need not terminate, so it is run with fuel:
  `none` means the fuel ran out, `some r` is the value the C function returns.
* `ltar.h` and `lerror.h` are not among the sources. The two records are
  rebuilt from the fields the C file uses, `push_error` from the spec, and the
  type flags `TAR_HARDLINK` and `TAR_SYMLINK` are parameters; the examples
  pass the ustar flags `'1'` (49) and `'2'` (50) for them.
-/

namespace LTar

/-! ## Machine integers -/

/-- The value of a C `int` after an arithmetic result `x` is stored in it
(32 bits, two's complement). -/
def wrapInt (x : Int) : Int :=
  (x + 2147483648) % 4294967296 - 2147483648

/-- Conversion of an `int` to `size_t` (`size_t filesize = parseoct(...)`):
the value modulo `2^64`. -/
def toSizeT (x : Int) : Nat :=
  (x % 18446744073709551616).toNat

/-- Conversion of a `size_t` to `long`, as happens to the second argument of
`fseek`: values from `2^63` on become negative. -/
def toLong (x : Nat) : Int :=
  if x < 9223372036854775808 then (x : Int) else (x : Int) - 18446744073709551616

/-! ## parseoct -/

/-- First loop of `parseoct`:
`while ((*p < '0' || *p > '7') && n > 0) { ++p; --n; }`.
The list is the memory from `p` on; the result is the advanced pointer and
the remaining count. Every call in the source leaves at least one byte of
`buff` behind the field, so `*p` is always a byte of the list. -/
def parseoct_skip : List Nat → Nat → List Nat × Nat
  | c :: p, n + 1 => if c < 48 ∨ c > 55 then parseoct_skip p n else (c :: p, n + 1)
  | p, n => (p, n)

/-- Second loop of `parseoct`:
`while (*p >= '0' && *p <= '7' && n > 0) { i *= 8; i += *p - '0'; ++p; --n; }`
with the accumulator `i` a C `int`. -/
def parseoct_digits : Int → List Nat → Nat → Int
  | i, c :: p, n + 1 =>
    if c ≥ 48 ∧ c ≤ 55 then
      parseoct_digits (wrapInt (wrapInt (i * 8) + ((c : Int) - 48))) p n
    else i
  | i, _, _ => i

/-- `static int parseoct(const char *p, size_t n)`: parse an octal number,
ignoring leading and trailing nonsense. -/
def parseoct (p : List Nat) (n : Nat) : Int :=
  parseoct_digits 0 (parseoct_skip p n).1 (parseoct_skip p n).2

/-! ## is_end_of_archive and verify_checksum -/

/-- Body of the loop of `is_end_of_archive` over the bytes in the order in
which they are tested: `if (p[n] != '\0') return (0);`, and `return (1)` when
none is left. -/
def all_zero : List Nat → Bool
  | [] => true
  | c :: p => if c ≠ 0 then false else all_zero p

/-- `static int is_end_of_archive(const char *p)`: true if this is 512 zero
bytes. The loop runs from `p[511]` down to `p[0]`. -/
def is_end_of_archive (p : List Nat) : Bool :=
  all_zero (p.take 512).reverse

/-- The loop of `verify_checksum` from index `n` on, the list holding
`p[n], p[n+1], ...` up to `p[511]`:
`if (n < 148 || n > 155) u += ((unsigned char *)p)[n]; else u += 0x20;`.
For real bytes `u` is at most `504 * 255 + 256`, far inside the range of
`int`. -/
def checksum_loop : List Nat → Nat → Int → Int
  | [], _, u => u
  | c :: p, n, u => checksum_loop p (n + 1) (if n < 148 ∨ n > 155 then u + (c : Int) else u + 32)

/-- `static int verify_checksum(const char *p)`:
`return (u == parseoct(p + 148, 8));`. -/
def verify_checksum (p : List Nat) : Bool :=
  decide (checksum_loop (p.take 512) 0 0 = parseoct (p.drop 148) 8)

/-! ## Streams, handles and entries -/

/-- A `FILE *` opened for reading on a regular file: the bytes of the file and
the position of the stream. -/
structure FILE where
  content : List Nat
  pos : Nat
  deriving DecidableEq

/-- `fread(buff, 1, 512, f)`: the bytes read (fewer than 512 at the end of the
file, none when the position is at or past the end) and the stream advanced by
their number. -/
def fread512 (f : FILE) : List Nat × FILE :=
  ((f.content.drop f.pos).take 512,
   { f with pos := f.pos + ((f.content.drop f.pos).take 512).length })

/-- `fseek(f, offset, SEEK_CUR)` with `offset` a `long`. The call fails, leaving
the position where it is, when the target is negative (`EINVAL`) or does not
fit `off_t` (`EOVERFLOW`); a target past the end of the file is accepted.
`ltar_entries` ignores the return value. -/
def fseek_cur (f : FILE) (offset : Int) : FILE :=
  if (f.pos : Int) + offset < 0 ∨ (f.pos : Int) + offset > 9223372036854775807 then f
  else { f with pos := ((f.pos : Int) + offset).toNat }

/-- Modelled from the spec: the declaration of `TAR_ARCHIVE` is in `ltar.h`,
which is not among the sources. The fields are the three that
`ltar_archive.c` reads and writes, the Archive Handle of the spec: the open
stream `f`, the owned copy `path` of the identifier, and the flag `closed`. -/
structure TAR_ARCHIVE where
  f : FILE
  path : String
  closed : Bool
  deriving DecidableEq

/-- Modelled from the spec: the declaration of `TAR_ARCHIVE_ENTRY` is in
`ltar.h`, which is not among the sources. The fields are the seven that
`ltar_entries` assigns, the Archive Entry of the spec; `headerStart` and
`size` hold the `size_t` values assigned to them, `mode` the `int` returned by
`parseoct`, `type` the byte `buff[156]`. The Lua user value that links an entry
to its archive is not part of the record. -/
structure TAR_ARCHIVE_ENTRY where
  path : List Nat
  type : Nat
  linkpath : Option (List Nat)
  headerStart : Nat
  readPosition : Nat
  size : Nat
  mode : Int
  deriving DecidableEq

/-- What a function of the module hands back to Lua. `ok` is the pushed
result, `error` is `nil` followed by a message, `undefined` stands for a call
that wrote past the end of `char error[130]`. -/
inductive Outcome (α : Type) where
  | ok (value : α)
  | error (msg : String)
  | undefined
  deriving DecidableEq

/-- Modelled from the spec: `push_error` is declared in `lerror.h`, which is
not among the sources. The scan "returns an ordered collection of entry
records or a descriptive error": the call ends the function with the message
as its error and nothing else. -/
def push_error {α : Type} (msg : String) : Outcome α :=
  .error msg

/-- `sprintf(error, ...)` into `char error[130]`, the result handed to
`push_error`: the formatted text needs its bytes and a terminating NUL; a
longer text is written past the end of the array. -/
def sprintf_push_error {α : Type} (text : String) : Outcome α :=
  if text.utf8ByteSize + 1 ≤ 130 then push_error text else .undefined

/-- `strdup(p)` for a pointer `p` into `buff`, the list being the bytes of
`buff` from `p` on: the bytes before the first NUL. The result is exact
whenever `buff` holds a NUL from `p` on. When it holds none, the C call reads
on behind `char buff[512]` and returns a longer string whose tail is not
determined by the file; the embedding then gives only the part inside
`buff`. -/
def strdup (p : List Nat) : List Nat :=
  p.takeWhile (fun c => c != 0)

/-- The release calls of `ltar_close`, in the order in which they are made. -/
inductive Release where
  | free_path
  | fclose_f
  deriving DecidableEq

/-! ## The functions of the module -/

/-- `int ltar_open(lua_State *L)`, over a file system that maps a path to the
bytes of the file, or to `none` when `fopen` fails. -/
def ltar_open (fs : String → Option (List Nat)) (path : String) : Outcome TAR_ARCHIVE :=
  match fs path with
  | none => sprintf_push_error ("failed to open tar file - " ++ path ++ "!")
  | some content => .ok { f := { content := content, pos := 0 }, path := path, closed := false }

/-- The text of the short-read message:
`"Short read on %s: expected 512, got %d\n"` with `archive->path` and
`(int)bytes_read`. -/
def short_read_text (path : String) (bytes_read : Nat) : String :=
  "Short read on " ++ path ++ ": expected 512, got " ++ toString bytes_read ++ "\n"

/-- The entry that `ltar_entries` builds from the header block `buff` read at
`position` (source lines 106 to 126). `TAR_HARDLINK` and `TAR_SYMLINK` are
constants of `ltar.h`, which is not among the sources; they are
parameters. -/
def decode_entry (TAR_HARDLINK TAR_SYMLINK : Nat) (buff : List Nat) (position : Nat) :
    TAR_ARCHIVE_ENTRY :=
  { path := strdup buff
    type := buff.getD 156 0
    linkpath :=
      if buff.getD 156 0 = TAR_HARDLINK ∨ buff.getD 156 0 = TAR_SYMLINK then
        some (strdup (buff.drop 157))
      else none
    headerStart := position
    readPosition := 0
    size := toSizeT (parseoct (buff.drop 124) 12)
    mode := parseoct (buff.drop 100) 8 }

/-- The content size aligned to the 512-byte block, in `size_t` arithmetic:
`filesize % 512 == 0 ? filesize : (filesize / 512 + 1) * 512`. -/
def align_filesize (filesize : Nat) : Nat :=
  if filesize % 512 = 0 then filesize
  else ((filesize / 512 + 1) * 512) % 18446744073709551616

/-- The `for (;;)` loop of `ltar_entries`, run for at most `fuel` iterations:
the state is the stream, the `size_t position` and the entries stored in the
table so far. `none` means that the loop is still running when the fuel is
used up. -/
def ltar_entries_loop (TAR_HARDLINK TAR_SYMLINK : Nat) (path : String) :
    Nat → FILE → Nat → List TAR_ARCHIVE_ENTRY →
    Option (Outcome (List TAR_ARCHIVE_ENTRY) × FILE)
  | 0, _, _, _ => none
  | fuel + 1, f, position, entries =>
    let buff := (fread512 f).1
    let f1 := (fread512 f).2
    if buff.length < 512 then
      some (sprintf_push_error (short_read_text path buff.length), f1)
    else if is_end_of_archive buff then
      some (.ok entries, f1)
    else if !verify_checksum buff then
      some (push_error "Checksum failure", f1)
    else
      let filesize := align_filesize (toSizeT (parseoct (buff.drop 124) 12))
      ltar_entries_loop TAR_HARDLINK TAR_SYMLINK path fuel
        (fseek_cur f1 (toLong filesize))
        ((position + (filesize + 512) % 18446744073709551616) % 18446744073709551616)
        (entries ++ [decode_entry TAR_HARDLINK TAR_SYMLINK buff position])

/-- `int ltar_entries(lua_State *L)`: the outcome and the handle after the
call. On a closed handle the function returns at once. -/
def ltar_entries (TAR_HARDLINK TAR_SYMLINK : Nat) (fuel : Nat) (archive : TAR_ARCHIVE) :
    Option (Outcome (List TAR_ARCHIVE_ENTRY) × TAR_ARCHIVE) :=
  if archive.closed then
    some (.error "archive is closed", archive)
  else
    match ltar_entries_loop TAR_HARDLINK TAR_SYMLINK archive.path fuel archive.f 0 [] with
    | none => none
    | some (r, f1) => some (r, { archive with f := f1 })

/-- `int ltar_close(lua_State *L)`: the handle after the call and the release
calls made. -/
def ltar_close (archive : TAR_ARCHIVE) : TAR_ARCHIVE × List Release :=
  if !archive.closed then
    ({ archive with closed := true }, [Release.free_path, Release.fclose_f])
  else (archive, [])


/-! ## Vocabulary of the statements -/

/-- The base-8 value of a run of ASCII octal digits. -/
def octal_value (digits : List Nat) : Nat :=
  digits.foldl (fun v c => v * 8 + (c - 48)) 0

/-- The value `v` written as `n` zero-padded octal ASCII digits, most
significant digit first (digits above the `n`-th are dropped). -/
def octal_field : Nat → Nat → List Nat
  | 0, _ => []
  | n + 1, v => octal_field n (v / 8) ++ [48 + v % 8]

/-- A byte in `'0'..'7'`. -/
def is_octal_digit (c : Nat) : Prop := 48 ≤ c ∧ c ≤ 55

instance : DecidablePred is_octal_digit := fun c => by
  unfold is_octal_digit; infer_instance

/-- The padded content size of the spec: `size` when it is a multiple of 512,
otherwise `(size / 512 + 1) * 512`. -/
def padded (size : Nat) : Nat :=
  if size % 512 = 0 then size else (size / 512 + 1) * 512

/-- The size that `ltar_entries` reads from a header block:
`size_t filesize = parseoct(buff + 124, 12)`. -/
def declared_size (hdr : List Nat) : Nat :=
  toSizeT (parseoct (hdr.drop 124) 12)

/-- The all-zero block that ends an archive. -/
def zero_block : List Nat := List.replicate 512 0

/-- A member of an archive, as a pair of its header block and the content
region behind it: the header is a full block, not all-zero, with a valid
checksum, the content region has the padded length of the size that the code
reads from the header, and the header holds a NUL at or behind offset 157, so
that both `strdup` calls end inside `buff`. -/
def well_formed_member (m : List Nat × List Nat) : Prop :=
  m.1.length = 512 ∧ is_end_of_archive m.1 = false ∧ verify_checksum m.1 = true ∧
    m.2.length = padded (declared_size m.1) ∧ 0 ∈ m.1.drop 157

instance : DecidablePred well_formed_member := fun m => by
  unfold well_formed_member; infer_instance

/-- The bytes of a sequence of members laid out one after the other. -/
def members_bytes : List (List Nat × List Nat) → List Nat
  | [] => []
  | m :: ms => m.1 ++ m.2 ++ members_bytes ms

/-- The entries of a sequence of members whose first header is at offset
`off`, in archive order. -/
def members_entries (TAR_HARDLINK TAR_SYMLINK : Nat) :
    Nat → List (List Nat × List Nat) → List TAR_ARCHIVE_ENTRY
  | _, [] => []
  | off, m :: ms =>
    decode_entry TAR_HARDLINK TAR_SYMLINK m.1 off ::
      members_entries TAR_HARDLINK TAR_SYMLINK (off + 512 + m.2.length) ms

/-! ## Example archives -/

/-- A ustar header block for the examples: the given name, size field (12
bytes) and checksum field (8 bytes), mode field `0000644`, type `'0'`, every
other byte zero. -/
def example_header (name size chksum : List Nat) : List Nat :=
  name ++ List.replicate (100 - name.length) 0 ++ [48, 48, 48, 48, 54, 52, 52, 0] ++
    List.replicate 16 0 ++ size ++ List.replicate 12 0 ++ chksum ++ [48] ++
    List.replicate 355 0

/-- The handle that `ltar_open` returns for a file with the given bytes. -/
def opened (path : String) (content : List Nat) : TAR_ARCHIVE :=
  { f := { content := content, pos := 0 }, path := path, closed := false }

/-- Header of the regular file `a.txt` of size 5. -/
def a_txt_header : List Nat :=
  example_header [97, 46, 116, 120, 116] [48, 48, 48, 48, 48, 48, 48, 48, 48, 48, 53, 0]
    [48, 48, 51, 50, 50, 50, 0, 32]

/-- The content region of `a.txt`: the five bytes of `hello` and 507 bytes of
padding. -/
def a_txt_content : List Nat :=
  [104, 101, 108, 108, 111] ++ List.replicate 507 0

/-- The archive of the single file `a.txt` with content `hello`: header, one
content block, one all-zero block. -/
def a_txt_stream : List Nat :=
  a_txt_header ++ a_txt_content ++ zero_block

/-- Header of a file `a` of size 512 (octal `1000`). -/
def a_512_header : List Nat :=
  example_header [97] [48, 48, 48, 48, 48, 48, 48, 49, 48, 48, 48, 0]
    [48, 48, 50, 52, 48, 48, 0, 32]

/-- Header of a file `c` of size 512 (octal `1000`). -/
def c_512_header : List Nat :=
  example_header [99] [48, 48, 48, 48, 48, 48, 48, 49, 48, 48, 48, 0]
    [48, 48, 50, 52, 48, 50, 0, 32]

/-- Header of a file `b` whose size field holds the eleven octal digits
`37777776000`, that is `2^32 - 1024`. -/
def b_wrapping_header : List Nat :=
  example_header [98] [51, 55, 55, 55, 55, 55, 55, 54, 48, 48, 48, 0]
    [48, 48, 50, 52, 54, 51, 0, 32]

/-- A 2048-byte archive: the header of `a` (size 512) at offset 0, the header
of `c` at offset 512 where the content of `a` is expected, the header of `b`
with size field `37777776000` at offset 1024, an all-zero block at offset
1536. -/
def backward_stream : List Nat :=
  a_512_header ++ c_512_header ++ b_wrapping_header ++ zero_block

/-- Header of a file `a` of size 1000 (octal `1750`). -/
def a_1000_header : List Nat :=
  example_header [97] [48, 48, 48, 48, 48, 48, 48, 49, 55, 53, 48, 0]
    [48, 48, 50, 52, 49, 52, 0, 32]

/-- Header of a file `b` of size 5. -/
def b_5_header : List Nat :=
  example_header [98] [48, 48, 48, 48, 48, 48, 48, 48, 48, 48, 53, 0]
    [48, 48, 50, 52, 48, 53, 0, 32]

/-- The archive of a file `a` of size 1000, with two content blocks, and a file
`b` of size 5, with one content block, ended by an all-zero block. -/
def two_entry_stream : List Nat :=
  a_1000_header ++ List.replicate 1024 7 ++ b_5_header ++ a_txt_content ++ zero_block

/-- Header of a file `a` whose size field holds `37777776000`. -/
def a_wrapping_header : List Nat :=
  example_header [97] [51, 55, 55, 55, 55, 55, 55, 54, 48, 48, 48, 0]
    [48, 48, 50, 52, 54, 50, 0, 32]

/-- Header of an empty file `b`. -/
def b_empty_header : List Nat :=
  example_header [98] [48, 48, 48, 48, 48, 48, 48, 48, 48, 48, 48, 0]
    [48, 48, 50, 52, 48, 48, 0, 32]

/-- Header of an empty file `c`. -/
def c_empty_header : List Nat :=
  example_header [99] [48, 48, 48, 48, 48, 48, 48, 48, 48, 48, 48, 0]
    [48, 48, 50, 52, 48, 49, 0, 32]

/-- A 2048-byte archive: the header of `a` with size field `37777776000` at
offset 0, the headers of the empty files `b` and `c` at offsets 512 and 1024,
an all-zero block at offset 1536. -/
def repeated_offset_stream : List Nat :=
  a_wrapping_header ++ b_empty_header ++ c_empty_header ++ zero_block

/-- The member `a.txt`, then a block of 512 bytes of value 1, then three more
bytes. -/
def corrupt_stream : List Nat :=
  members_bytes [(a_txt_header, a_txt_content)] ++ (List.replicate 512 1 ++ [1, 2, 3])

/-- The members `a.txt` (size 5) and `b` (empty), then an all-zero block, then
three more bytes. -/
def two_member_stream : List Nat :=
  members_bytes [(a_txt_header, a_txt_content), (b_empty_header, [])] ++
    (zero_block ++ [1, 2, 3])

/-- Header of a file `a` whose size field holds the eleven octal digits
`37777777777`, that is `2^32 - 1`. -/
def a_minus_one_header : List Nat :=
  example_header [97] [51, 55, 55, 55, 55, 55, 55, 55, 55, 55, 55, 0]
    [48, 48, 50, 53, 49, 48, 0, 32]

/-- A 1024-byte archive: the header of `a` with size field `37777777777` and an
all-zero block. -/
def oversized_stream : List Nat :=
  a_minus_one_header ++ zero_block

/-- Header of a file `a` whose size field holds the eleven octal digits
`37777777000`, that is `2^32 - 512`. -/
def a_minus_512_header : List Nat :=
  example_header [97] [51, 55, 55, 55, 55, 55, 55, 55, 48, 48, 48, 0]
    [48, 48, 50, 52, 54, 51, 0, 32]

/-- A 1024-byte archive: the header of `a` with size field `37777777000` and an
all-zero block. -/
def looping_stream : List Nat :=
  a_minus_512_header ++ zero_block

/-- Header of an empty file whose name fills the 100 bytes of the name field
with the letter `a`, so that the field holds no NUL. -/
def long_name_header : List Nat :=
  example_header (List.replicate 100 97) [48, 48, 48, 48, 48, 48, 48, 48, 48, 48, 48, 0]
    [48, 50, 53, 50, 48, 50, 0, 32]

/-- The archive of the one file with the 100-byte name: header and all-zero
block. -/
def long_name_stream : List Nat :=
  long_name_header ++ zero_block

/-- Header of a symbolic link `l` to `a.txt`: type `'2'`, link name at offset
157, mode field `0000644`, size 0. -/
def link_header : List Nat :=
  [108] ++ List.replicate 99 0 ++ [48, 48, 48, 48, 54, 52, 52, 0] ++ List.replicate 16 0 ++
    [48, 48, 48, 48, 48, 48, 48, 48, 48, 48, 48, 0] ++ List.replicate 12 0 ++
    [48, 48, 51, 51, 55, 51, 0, 32] ++ [50] ++ [97, 46, 116, 120, 116] ++ List.replicate 350 0

/-- The archive `backward_stream` with the block at offset 512, which lies in
the content region of `a`, replaced by zero bytes. -/
def backward_stream_blank : List Nat :=
  a_512_header ++ zero_block ++ b_wrapping_header ++ zero_block

/-- Header of a file `a.txt` of 2 GiB: the size field holds the twelve octal
digits `020000000000`, that is `2^31`. -/
def two_gib_header : List Nat :=
  example_header [97, 46, 116, 120, 116] [48, 50, 48, 48, 48, 48, 48, 48, 48, 48, 48, 48]
    [48, 48, 51, 50, 55, 55, 0, 32]

/-- The archive of the one file `a.txt` of `2^31` zero bytes: header, content
region, all-zero block. -/
def two_gib_zero_stream : List Nat :=
  two_gib_header ++ List.replicate 2147483648 0 ++ zero_block

/-- The header of `a.txt` with its content region of `2^31` zero bytes, and
behind it, where the next header is due, a block of 512 bytes of value 1. -/
def two_gib_corrupt_stream : List Nat :=
  two_gib_header ++ List.replicate 2147483648 0 ++ List.replicate 512 1

/-- The archive of the one file `a.txt` of `2^31` bytes of value 1: header,
content region, all-zero block. -/
def two_gib_ones_stream : List Nat :=
  two_gib_header ++ List.replicate 2147483648 1 ++ zero_block

/-- The entry of the examples with the given name, offset and size. -/
def example_entry (name : List Nat) (headerStart size : Nat) : TAR_ARCHIVE_ENTRY :=
  { path := name, type := 48, linkpath := none, headerStart := headerStart,
    readPosition := 0, size := size, mode := 420 }

/-- The handle after `n` successive calls of `ltar_close`, and the release
calls made by them. -/
def close_calls : Nat → TAR_ARCHIVE → TAR_ARCHIVE × List Release
  | 0, archive => (archive, [])
  | n + 1, archive =>
    ((close_calls n (ltar_close archive).1).1,
     (ltar_close archive).2 ++ (close_calls n (ltar_close archive).1).2)

/-! ## Facts about parseoct -/

theorem wrapInt_range (x : Int) : -2147483648 ≤ wrapInt x ∧ wrapInt x < 2147483648 := by
  unfold wrapInt; omega

theorem wrapInt_of_range (x : Int) (h1 : -2147483648 ≤ x) (h2 : x < 2147483648) :
    wrapInt x = x := by
  unfold wrapInt; omega

theorem wrapInt_step (a d : Int) :
    wrapInt (wrapInt (wrapInt a * 8) + d) = wrapInt (a * 8 + d) := by
  unfold wrapInt; omega

theorem parseoct_digits_range (p : List Nat) :
    ∀ (n : Nat) (i : Int), -2147483648 ≤ i ∧ i < 2147483648 →
      -2147483648 ≤ parseoct_digits i p n ∧ parseoct_digits i p n < 2147483648 := by
  induction p with
  | nil => intro n i h; simpa [parseoct_digits] using h
  | cons c p ih =>
    intro n i h
    cases n with
    | zero => simpa [parseoct_digits] using h
    | succ n =>
      simp only [parseoct_digits]
      split
      · exact ih n _ (wrapInt_range _)
      · exact h

/-- The `int` that `parseoct` returns lies in the range of `int`. -/
theorem parseoct_range (p : List Nat) (n : Nat) :
    -2147483648 ≤ parseoct p n ∧ parseoct p n < 2147483648 := by
  unfold parseoct
  exact parseoct_digits_range _ _ 0 (by omega)

/-- The first loop passes over a prefix of bytes that are not octal digits. -/
theorem parseoct_skip_prefix (pre : List Nat) (hpre : ∀ c ∈ pre, ¬ is_octal_digit c) :
    ∀ (l : List Nat) (k : Nat),
      parseoct_skip (pre ++ l) (pre.length + k) = parseoct_skip l k := by
  induction pre with
  | nil => intro l k; simp
  | cons c pre ih =>
    intro l k
    have hc : c < 48 ∨ c > 55 := by
      have := hpre c (List.mem_cons_self _ _)
      unfold is_octal_digit at this; omega
    have hk : (c :: pre).length + k = (pre.length + k) + 1 := by simp; omega
    rw [hk, List.cons_append, parseoct_skip, if_pos hc]
    exact ih (fun x hx => hpre x (List.mem_cons_of_mem _ hx)) l k

/-- The first loop stops at an octal digit. -/
theorem parseoct_skip_digit (c : Nat) (l : List Nat) (k : Nat) (hc : is_octal_digit c) :
    parseoct_skip (c :: l) (k + 1) = (c :: l, k + 1) := by
  have : ¬ (c < 48 ∨ c > 55) := by unfold is_octal_digit at hc; omega
  rw [parseoct_skip, if_neg this]

/-- The second loop over a run of octal digits accumulates their base-8 value
on top of the accumulator, in `int` arithmetic. -/
theorem parseoct_digits_run (run : List Nat) (hrun : ∀ c ∈ run, is_octal_digit c) :
    ∀ (l : List Nat) (k : Nat) (a : Int),
      parseoct_digits (wrapInt a) (run ++ l) (run.length + k) =
        parseoct_digits (wrapInt (a * 8 ^ run.length + octal_value run)) l k := by
  induction run using List.reverseRecOn with
  | nil => intro l k a; simp [octal_value]
  | append_singleton run c ih =>
    intro l k a
    have hc : c ≥ 48 ∧ c ≤ 55 := by
      have := hrun c (by simp); unfold is_octal_digit at this; omega
    have hk : (run ++ [c]).length + k = run.length + (k + 1) := by simp; omega
    rw [hk, List.append_assoc, ih (fun x hx => hrun x (by simp [hx])), List.singleton_append,
      parseoct_digits, if_pos hc, wrapInt_step]
    congr 2
    simp only [octal_value, List.foldl_append, List.foldl_cons, List.foldl_nil, List.length_append,
      List.length_singleton]
    push_cast
    rw [Int.ofNat_sub hc.1]
    ring

/-- The second loop stops where the field ends or a byte is not an octal
digit. -/
theorem parseoct_digits_stop (i : Int) (l : List Nat) (k : Nat)
    (h : k = 0 ∨ l = [] ∨ ∃ c t, l = c :: t ∧ ¬ is_octal_digit c) :
    parseoct_digits i l k = i := by
  rcases h with h | h | ⟨c, t, h, hc⟩
  · subst h; cases l <;> simp [parseoct_digits]
  · subst h; simp [parseoct_digits]
  · subst h
    cases k with
    | zero => simp [parseoct_digits]
    | succ k =>
      have : ¬ (c ≥ 48 ∧ c ≤ 55) := by unfold is_octal_digit at hc; omega
      rw [parseoct_digits, if_neg this]


/-- Tolerance of `parseoct`, in `int` arithmetic: on a field made of bytes that
are not octal digits, then a run of octal digits, then either nothing or a
byte that is not an octal digit and anything behind it, the result is the
base-8 value of the run wrapped into `int`, whatever follows the run inside
and behind the field. -/
theorem parseoct_run_wrapped (pre run post beyond : List Nat)
    (hpre : ∀ c ∈ pre, ¬ is_octal_digit c) (hrun : ∀ c ∈ run, is_octal_digit c)
    (hne : run ≠ [])
    (hpost : post = [] ∨ ∃ c t, post = c :: t ∧ ¬ is_octal_digit c) :
    parseoct (pre ++ run ++ post ++ beyond) (pre.length + run.length + post.length) =
      wrapInt (octal_value run) := by
  obtain ⟨d, run1, rfl⟩ := List.exists_cons_of_ne_nil hne
  have hskip : parseoct_skip (pre ++ (d :: run1) ++ post ++ beyond)
      (pre.length + (d :: run1).length + post.length) =
      ((d :: run1) ++ (post ++ beyond), (d :: run1).length + post.length) := by
    have h1 : pre ++ (d :: run1) ++ post ++ beyond = pre ++ (d :: (run1 ++ post ++ beyond)) := by
      simp
    have h2 : pre.length + (d :: run1).length + post.length =
        pre.length + ((run1.length + post.length) + 1) := by simp; omega
    rw [h1, h2, parseoct_skip_prefix pre hpre,
      parseoct_skip_digit d _ _ (hrun d (List.mem_cons_self _ _))]
    simp; omega
  unfold parseoct
  rw [hskip]
  have h0 : wrapInt 0 = 0 := by unfold wrapInt; omega
  have hrun0 := parseoct_digits_run (d :: run1) hrun (post ++ beyond) post.length 0
  rw [h0, Int.zero_mul, Int.zero_add] at hrun0
  rw [hrun0]
  apply parseoct_digits_stop
  rcases hpost with h | ⟨c, t, h, hc⟩
  · subst h; left; simp
  · subst h; right; right; exact ⟨c, t ++ beyond, by simp, hc⟩

/-- Tolerance of `parseoct` for values inside the range of `int`: when the
base-8 value of the run is below `2^31`, it is the result. -/
theorem parseoct_run_small (pre run post beyond : List Nat)
    (hpre : ∀ c ∈ pre, ¬ is_octal_digit c) (hrun : ∀ c ∈ run, is_octal_digit c)
    (hne : run ≠ [])
    (hpost : post = [] ∨ ∃ c t, post = c :: t ∧ ¬ is_octal_digit c)
    (hsmall : octal_value run < 2147483648) :
    parseoct (pre ++ run ++ post ++ beyond) (pre.length + run.length + post.length) =
      (octal_value run : Int) := by
  rw [parseoct_run_wrapped pre run post beyond hpre hrun hne hpost]
  exact wrapInt_of_range _ (by omega) (by omega)

/-- A field without any octal digit parses to 0. -/
theorem parseoct_no_digit (field beyond : List Nat) (h : ∀ c ∈ field, ¬ is_octal_digit c) :
    parseoct (field ++ beyond) field.length = 0 := by
  unfold parseoct
  have := parseoct_skip_prefix field h beyond 0
  simp only [Nat.add_zero] at this
  rw [this]
  cases beyond <;> simp [parseoct_skip, parseoct_digits]

theorem octal_field_length (n : Nat) : ∀ v, (octal_field n v).length = n := by
  induction n with
  | zero => intro v; rfl
  | succ n ih => intro v; simp [octal_field, ih]

theorem octal_field_digits (n : Nat) : ∀ v, ∀ c ∈ octal_field n v, is_octal_digit c := by
  induction n with
  | zero => intro v c hc; simp [octal_field] at hc
  | succ n ih =>
    intro v c hc
    simp only [octal_field, List.mem_append, List.mem_singleton] at hc
    rcases hc with hc | hc
    · exact ih _ c hc
    · subst hc; unfold is_octal_digit; omega

theorem octal_value_field (n : Nat) : ∀ v, v < 8 ^ n → octal_value (octal_field n v) = v := by
  induction n with
  | zero => intro v hv; simp at hv; subst hv; rfl
  | succ n ih =>
    intro v hv
    have h8 : v / 8 < 8 ^ n := by
      rw [Nat.div_lt_iff_lt_mul (by norm_num)]; rw [pow_succ] at hv; exact hv
    have := ih (v / 8) h8
    unfold octal_value at this ⊢
    simp only [octal_field, List.foldl_append, List.foldl_cons, List.foldl_nil, this]
    omega

/-- Round trip of the octal field in `int` arithmetic: the `n` zero-padded
octal digits of `v` parse to `v` wrapped into `int`, hence to `v` itself
whenever `v < 2^31`. -/
theorem parseoct_octal_field (n v : Nat) (beyond : List Nat) (hv : v < 8 ^ n) :
    parseoct (octal_field n v ++ beyond) n = wrapInt v := by
  cases n with
  | zero =>
    simp at hv; subst hv
    cases beyond <;> simp [octal_field, parseoct, parseoct_skip, parseoct_digits, wrapInt]
  | succ n =>
    have hne : octal_field (n + 1) v ≠ [] := by
      intro h; have := octal_field_length (n + 1) v; rw [h] at this; simp at this
    have := parseoct_run_wrapped [] (octal_field (n + 1) v) [] beyond (by simp)
      (octal_field_digits _ _) hne (Or.inl rfl)
    simp only [List.nil_append, List.append_nil, List.length_nil, Nat.zero_add, Nat.add_zero,
      octal_field_length] at this
    rw [this, octal_value_field _ _ hv]

theorem parseoct_octal_field_small (n v : Nat) (beyond : List Nat) (hv : v < 8 ^ n)
    (hint : v < 2147483648) :
    parseoct (octal_field n v ++ beyond) n = (v : Int) := by
  rw [parseoct_octal_field n v beyond hv]
  exact wrapInt_of_range _ (by omega) (by omega)


/-! ## Facts about the scan loop -/

/-- One iteration of the loop at the header of a well-formed member of a file
whose length fits `off_t`: the entry is appended, and the stream and
`position` move behind the content region. -/
theorem loop_step_member (hl sl : Nat) (path : String) (m : List Nat × List Nat)
    (rest : List Nat) (f : FILE) (fuel : Nat) (entries : List TAR_ARCHIVE_ENTRY)
    (hm : well_formed_member m) (hf : f.content.drop f.pos = m.1 ++ m.2 ++ rest)
    (hlen : f.content.length < 9223372036854775808) :
    ltar_entries_loop hl sl path (fuel + 1) f f.pos entries =
      ltar_entries_loop hl sl path fuel { f with pos := f.pos + 512 + m.2.length }
        (f.pos + 512 + m.2.length) (entries ++ [decode_entry hl sl m.1 f.pos]) := by
  obtain ⟨h512, hnz, hck, hcontent, _⟩ := hm
  have hread : (f.content.drop f.pos).take 512 = m.1 := by
    rw [hf, List.append_assoc, List.take_left' h512]
  have hbound : f.pos + 512 + m.2.length ≤ f.content.length := by
    have := congrArg List.length hf
    simp only [List.length_drop, List.length_append, h512] at this
    omega
  have halign : align_filesize (toSizeT (parseoct (m.1.drop 124) 12)) = m.2.length := by
    have hc : m.2.length = padded (toSizeT (parseoct (m.1.drop 124) 12)) := hcontent
    unfold padded at hc
    unfold align_filesize
    split
    · rw [if_pos (by assumption)] at hc; exact hc.symm
    · rw [if_neg (by assumption)] at hc
      rw [← hc]; exact Nat.mod_eq_of_lt (by omega)
  have hlong : toLong m.2.length = (m.2.length : Int) := by
    unfold toLong; rw [if_pos (by omega)]
  rw [ltar_entries_loop]
  simp only [fread512, hread, h512, hnz, hck, halign, hlong, lt_irrefl, if_false,
    Bool.not_true, Bool.false_eq_true]
  have hseek : fseek_cur { content := f.content, pos := f.pos + 512 } (m.2.length : Int) =
      { f with pos := f.pos + 512 + m.2.length } := by
    unfold fseek_cur
    rw [if_neg (by simp only []; omega)]
    simp only [FILE.mk.injEq, true_and]
    omega
  have hpos : (f.pos + (m.2.length + 512) % 18446744073709551616) % 18446744073709551616 =
      f.pos + 512 + m.2.length := by omega
  rw [hseek, hpos]


theorem drop_behind (content : List Nat) (pos : Nat) (a rest : List Nat)
    (h : content.drop pos = a ++ rest) : content.drop (pos + a.length) = rest := by
  rw [← List.drop_drop, h, List.drop_left]

theorem members_bytes_cons_length (m : List Nat × List Nat) (ms : List (List Nat × List Nat)) :
    (members_bytes (m :: ms)).length = m.1.length + m.2.length + (members_bytes ms).length := by
  simp [members_bytes]; omega

/-- The loop run over a sequence of well-formed members: one iteration each,
the entries appended in archive order. -/
theorem loop_members (hl sl : Nat) (path : String) (ms : List (List Nat × List Nat)) :
    ∀ (f : FILE) (fuel : Nat) (entries : List TAR_ARCHIVE_ENTRY) (rest : List Nat),
      (∀ m ∈ ms, well_formed_member m) →
      f.content.drop f.pos = members_bytes ms ++ rest →
      f.content.length < 9223372036854775808 →
      ltar_entries_loop hl sl path (ms.length + fuel) f f.pos entries =
        ltar_entries_loop hl sl path fuel { f with pos := f.pos + (members_bytes ms).length }
          (f.pos + (members_bytes ms).length) (entries ++ members_entries hl sl f.pos ms) := by
  induction ms with
  | nil =>
    intro f fuel entries rest _ _ _
    simp [members_bytes, members_entries]
  | cons m ms ih =>
    intro f fuel entries rest hms hf hlen
    have hm : well_formed_member m := hms m (List.mem_cons_self _ _)
    have hf1 : f.content.drop f.pos = m.1 ++ m.2 ++ (members_bytes ms ++ rest) := by
      rw [hf]; simp [members_bytes]
    have hfuel : (m :: ms).length + fuel = (ms.length + fuel) + 1 := by simp; omega
    rw [hfuel, loop_step_member hl sl path m _ f _ entries hm hf1 hlen]
    have hnext : ({ f with pos := f.pos + 512 + m.2.length } : FILE).content.drop
        ({ f with pos := f.pos + 512 + m.2.length } : FILE).pos = members_bytes ms ++ rest := by
      have := drop_behind f.content f.pos (m.1 ++ m.2) _ hf1
      simp only [List.length_append, hm.1] at this
      simpa [Nat.add_assoc] using this
    have := ih { f with pos := f.pos + 512 + m.2.length } fuel
      (entries ++ [decode_entry hl sl m.1 f.pos]) rest
      (fun x hx => hms x (List.mem_cons_of_mem _ hx)) hnext hlen
    simp only [] at this
    rw [this, members_bytes_cons_length, hm.1]
    simp only [members_entries, List.append_assoc, List.singleton_append, Nat.add_assoc]

/-- The loop at an all-zero block: the scan ends with the entries stored so
far. -/
theorem loop_end_of_archive (hl sl : Nat) (path : String) (f : FILE) (fuel position : Nat)
    (entries : List TAR_ARCHIVE_ENTRY) (tail : List Nat)
    (hf : f.content.drop f.pos = zero_block ++ tail) :
    ltar_entries_loop hl sl path (fuel + 1) f position entries =
      some (.ok entries, { f with pos := f.pos + 512 }) := by
  have hzlen : zero_block.length = 512 := List.length_replicate 512 0
  have hread : (f.content.drop f.pos).take 512 = zero_block := by
    rw [hf, List.take_left' hzlen]
  have hz : is_end_of_archive zero_block = true := by decide!
  rw [ltar_entries_loop]
  simp only [fread512, hread, hz, hzlen, lt_irrefl, if_false, if_true]

/-- The loop at a full block that is neither all-zero nor checksum-valid. -/
theorem loop_checksum_failure (hl sl : Nat) (path : String) (f : FILE) (fuel position : Nat)
    (entries : List TAR_ARCHIVE_ENTRY) (bad tail : List Nat)
    (hf : f.content.drop f.pos = bad ++ tail) (hlen : bad.length = 512)
    (hnz : is_end_of_archive bad = false) (hck : verify_checksum bad = false) :
    ltar_entries_loop hl sl path (fuel + 1) f position entries =
      some (.error "Checksum failure", { f with pos := f.pos + 512 }) := by
  have hread : (f.content.drop f.pos).take 512 = bad := by
    rw [hf, List.take_left' hlen]
  rw [ltar_entries_loop]
  simp [fread512, hread, hlen, hnz, hck, push_error]

/-- The loop where fewer than 512 bytes are left. -/
theorem loop_short_read (hl sl : Nat) (path : String) (f : FILE) (fuel position : Nat)
    (entries : List TAR_ARCHIVE_ENTRY) (hf : (f.content.drop f.pos).length < 512) :
    ltar_entries_loop hl sl path (fuel + 1) f position entries =
      some (sprintf_push_error (short_read_text path (f.content.drop f.pos).length),
        { f with pos := f.pos + (f.content.drop f.pos).length }) := by
  have hread : (f.content.drop f.pos).take 512 = f.content.drop f.pos :=
    List.take_of_length_le (by omega)
  rw [ltar_entries_loop]
  simp only [fread512, hread, if_pos hf]


theorem strdup_terminated (name tail : List Nat) (h : ∀ c ∈ name, c ≠ 0) :
    strdup (name ++ 0 :: tail) = name := by
  induction name with
  | nil => simp [strdup]
  | cons c name ih =>
    have hc : c ≠ 0 := h c (List.mem_cons_self _ _)
    have := ih (fun x hx => h x (List.mem_cons_of_mem _ hx))
    have hb : (c != 0) = true := by simp [hc]
    unfold strdup at this ⊢
    rw [List.cons_append, List.takeWhile_cons, hb, this]
    rfl

/-- A scan of an open handle is the loop started at `position = 0` with no
entries. -/
theorem ltar_entries_open (hl sl fuel : Nat) (archive : TAR_ARCHIVE)
    (hopen : archive.closed = false) :
    ltar_entries hl sl fuel archive =
      (ltar_entries_loop hl sl archive.path fuel archive.f 0 []).map
        (fun r => (r.1, { archive with f := r.2 })) := by
  unfold ltar_entries
  simp only [hopen, Bool.false_eq_true, if_false]
  cases ltar_entries_loop hl sl archive.path fuel archive.f 0 [] <;> rfl

/-- The scan of an open handle at position 0 over a sequence of well-formed
members: what is left is the loop at the first block behind them. -/
theorem ltar_entries_members (hl sl fuel : Nat) (archive : TAR_ARCHIVE)
    (ms : List (List Nat × List Nat)) (rest : List Nat)
    (hopen : archive.closed = false) (hpos : archive.f.pos = 0)
    (hfile : archive.f.content.length < 9223372036854775808)
    (hstream : archive.f.content = members_bytes ms ++ rest)
    (hms : ∀ m ∈ ms, well_formed_member m) :
    ltar_entries hl sl (ms.length + fuel) archive =
      (ltar_entries_loop hl sl archive.path fuel
        { archive.f with pos := (members_bytes ms).length } (members_bytes ms).length
        (members_entries hl sl 0 ms)).map (fun r => (r.1, { archive with f := r.2 })) ∧
    ({ archive.f with pos := (members_bytes ms).length } : FILE).content.drop
      (members_bytes ms).length = rest := by
  have hdrop : archive.f.content.drop archive.f.pos = members_bytes ms ++ rest := by
    rw [hpos, hstream]; rfl
  have hloop := loop_members hl sl archive.path ms archive.f fuel [] rest hms hdrop hfile
  rw [hpos] at hloop
  simp only [Nat.zero_add, List.nil_append] at hloop
  refine ⟨?_, ?_⟩
  · rw [ltar_entries_open hl sl _ archive hopen, hloop]
  · have := drop_behind archive.f.content 0 _ _ (by rw [← hpos]; exact hdrop)
    simpa using this

/-- The short read behind a sequence of well-formed members, for an identifier
short enough for the message to fit `char error[130]`. -/
theorem short_read_after_members (hl sl fuel : Nat) (archive : TAR_ARCHIVE)
    (ms : List (List Nat × List Nat)) (tail : List Nat)
    (hopen : archive.closed = false) (hpos : archive.f.pos = 0)
    (hfile : archive.f.content.length < 9223372036854775808)
    (hstream : archive.f.content = members_bytes ms ++ tail)
    (hms : ∀ m ∈ ms, well_formed_member m) (hshort : tail.length < 512)
    (hfit : (short_read_text archive.path tail.length).utf8ByteSize + 1 ≤ 130)
    (hfuel : ms.length < fuel) :
    ltar_entries hl sl fuel archive =
      some (.error ("Short read on " ++ archive.path ++ ": expected 512, got " ++
          toString tail.length ++ "\n"),
        { archive with f := { archive.f with pos := archive.f.content.length } }) := by
  obtain ⟨k, rfl⟩ : ∃ k, fuel = ms.length + (k + 1) := ⟨fuel - ms.length - 1, by omega⟩
  obtain ⟨hscan, hdrop⟩ := ltar_entries_members hl sl (k + 1) archive ms tail hopen hpos hfile
    hstream hms
  have hlen : archive.f.content.length = (members_bytes ms).length + tail.length := by
    rw [hstream, List.length_append]
  rw [hscan, loop_short_read _ _ _ _ _ _ _ (by simp only []; rw [hdrop]; exact hshort)]
  simp only [hdrop, Option.map_some', sprintf_push_error, if_pos hfit, push_error, hlen]
  rfl

/-- Closing a closed handle any number of times changes nothing and releases
nothing. -/
theorem close_calls_closed (n : Nat) (archive : TAR_ARCHIVE) (h : archive.closed = true) :
    close_calls n archive = (archive, []) := by
  induction n with
  | zero => rfl
  | succ n ih =>
    have hc : ltar_close archive = (archive, []) := by
      unfold ltar_close; simp [h]
    simp only [close_calls, hc, ih, List.append_nil]

/-! ## Facts about the two block tests -/

theorem parseoct_digits_take (p : List Nat) :
    ∀ (n : Nat) (i : Int), parseoct_digits i (p.take n) n = parseoct_digits i p n := by
  induction p with
  | nil => intro n i; simp
  | cons c p ih =>
    intro n i
    cases n with
    | zero => simp [parseoct_digits]
    | succ n =>
      simp only [List.take_succ_cons, parseoct_digits]
      split
      · exact ih n _
      · rfl

theorem parseoct_skip_take (p : List Nat) :
    ∀ n : Nat, parseoct_skip (p.take n) n =
      ((parseoct_skip p n).1.take (parseoct_skip p n).2, (parseoct_skip p n).2) := by
  induction p with
  | nil => intro n; cases n <;> simp [parseoct_skip]
  | cons c p ih =>
    intro n
    cases n with
    | zero => simp [parseoct_skip]
    | succ n =>
      simp only [List.take_succ_cons, parseoct_skip]
      split
      · exact ih n
      · simp

/-- The result of `parseoct` depends on the `n` bytes of the field only. -/
theorem parseoct_take (p : List Nat) (n : Nat) : parseoct (p.take n) n = parseoct p n := by
  unfold parseoct
  rw [parseoct_skip_take]
  exact parseoct_digits_take _ _ _

theorem take_set_beyond (v : Nat) (l : List Nat) :
    ∀ n i : Nat, n ≤ i → (l.set i v).take n = l.take n := by
  induction l with
  | nil => intro n i _; simp
  | cons c l ih =>
    intro n i h
    cases n with
    | zero => simp
    | succ n =>
      cases i with
      | zero => omega
      | succ i => simp [ih n i (by omega)]

/-- The sum of `verify_checksum` is the start value plus the sum from 0. -/
theorem checksum_loop_add (l : List Nat) :
    ∀ (n : Nat) (u : Int), checksum_loop l n u = u + checksum_loop l n 0 := by
  induction l with
  | nil => intro n u; simp [checksum_loop]
  | cons c l ih =>
    intro n u
    simp only [checksum_loop]
    rw [ih (n + 1) (if n < 148 ∨ n > 155 then u + (c : Int) else u + 32),
      ih (n + 1) (if n < 148 ∨ n > 155 then 0 + (c : Int) else 0 + 32)]
    split <;> omega

theorem checksum_loop_append (a b : List Nat) :
    ∀ (n : Nat) (u : Int),
      checksum_loop (a ++ b) n u = checksum_loop b (n + a.length) (checksum_loop a n u) := by
  induction a with
  | nil => intro n u; simp [checksum_loop]
  | cons c a ih =>
    intro n u
    show checksum_loop (c :: (a ++ b)) n u = _
    rw [checksum_loop, ih]
    simp only [List.length_cons, checksum_loop]
    congr 1
    omega

/-- Outside the checksum field the loop adds the bytes. -/
theorem checksum_loop_outside (l : List Nat) :
    ∀ (n : Nat) (u : Int), n + l.length ≤ 148 ∨ 156 ≤ n →
      checksum_loop l n u = u + (l.sum : Nat) := by
  induction l with
  | nil => intro n u _; simp [checksum_loop]
  | cons c l ih =>
    intro n u h
    simp only [List.length_cons] at h
    have hn : n < 148 ∨ n > 155 := by omega
    simp only [checksum_loop, if_pos hn, List.sum_cons]
    rw [ih (n + 1) _ (by omega)]
    push_cast
    omega

/-- Inside the checksum field the loop adds `0x20` per byte. -/
theorem checksum_loop_field (l : List Nat) :
    ∀ (n : Nat) (u : Int), 148 ≤ n → n + l.length ≤ 156 →
      checksum_loop l n u = u + 32 * (l.length : Nat) := by
  induction l with
  | nil => intro n u _ _; simp [checksum_loop]
  | cons c l ih =>
    intro n u h1 h2
    simp only [List.length_cons] at h2
    have hn : ¬ (n < 148 ∨ n > 155) := by omega
    simp only [checksum_loop, if_neg hn, List.length_cons]
    rw [ih (n + 1) _ (by omega) (by omega)]
    push_cast
    omega

/-- The sum that `verify_checksum` computes for a 512-byte block. -/
theorem checksum_loop_block (b : List Nat) (hlen : b.length = 512) :
    checksum_loop (b.take 512) 0 0 =
      (((b.take 148).sum + (b.drop 156).sum + 8 * 32 : Nat) : Int) := by
  have hsplit : b.take 512 = b.take 148 ++ ((b.drop 148).take 8 ++ b.drop 156) := by
    rw [List.take_of_length_le (by omega)]
    have h1 : (b.drop 148).take 8 ++ b.drop 156 = b.drop 148 := by
      have := List.take_append_drop 8 (b.drop 148)
      rw [List.drop_drop] at this
      exact this
    rw [h1, List.take_append_drop]
  have l1 : (b.take 148).length = 148 := by simp [hlen]
  have l2 : ((b.drop 148).take 8).length = 8 := by simp [hlen]
  rw [hsplit, checksum_loop_append, checksum_loop_append,
    checksum_loop_outside (b.take 148) 0 0 (by omega),
    checksum_loop_field ((b.drop 148).take 8) (0 + (b.take 148).length) _ (by omega) (by omega),
    checksum_loop_outside (b.drop 156) _ _ (by omega), l2]
  push_cast
  omega

/-- The value of `verify_checksum` on a 512-byte block: the bytes outside the
checksum field are summed, the field counts as eight spaces, and the field
is read only through `parseoct` of its eight bytes. -/
theorem verify_checksum_eq (b : List Nat) (hlen : b.length = 512) :
    verify_checksum b =
      decide ((((b.take 148).sum + (b.drop 156).sum + 8 * 32 : Nat) : Int) =
        parseoct ((b.drop 148).take 8) 8) := by
  unfold verify_checksum
  rw [checksum_loop_block b hlen, parseoct_take]

theorem all_zero_iff (l : List Nat) : all_zero l = true ↔ ∀ c ∈ l, c = 0 := by
  induction l with
  | nil => simp [all_zero]
  | cons c l ih =>
    simp only [all_zero, List.mem_cons, forall_eq_or_imp]
    by_cases hc : c = 0
    · simp [hc, ih]
    · simp [hc]

/-- The value of `is_end_of_archive` on a 512-byte block. -/
theorem is_end_of_archive_eq (b : List Nat) (hlen : b.length = 512) :
    is_end_of_archive b = true ↔ ∀ c ∈ b, c = 0 := by
  unfold is_end_of_archive
  rw [List.take_of_length_le (by omega), all_zero_iff]
  simp

/-- Replacing a byte outside the checksum field changes the sum by the
difference of the two byte values. -/
theorem checksum_loop_set (v : Nat) (l : List Nat) :
    ∀ (n : Nat) (u : Int) (i : Nat), i < l.length → (n + i < 148 ∨ 155 < n + i) →
      checksum_loop (l.set i v) n u + (l.getD i 0 : Nat) = checksum_loop l n u + (v : Nat) := by
  induction l with
  | nil => intro n u i hi _; simp at hi
  | cons c l ih =>
    intro n u i hi hout
    cases i with
    | zero =>
      have hn : n < 148 ∨ n > 155 := by omega
      simp only [List.set_cons_zero, checksum_loop, if_pos hn, List.getD_cons_zero]
      rw [checksum_loop_add l (n + 1) (u + (v : Int)), checksum_loop_add l (n + 1) (u + (c : Int))]
      omega
    | succ i =>
      simp only [List.length_cons] at hi
      simp only [List.set_cons_succ, checksum_loop, List.getD_cons_succ]
      exact ih (n + 1) _ i (by omega) (by omega)

/-- Replacing a byte outside the checksum field leaves the eight bytes of the
field as they are. -/
theorem checksum_field_set (v : Nat) (b : List Nat) (i : Nat) (hout : i < 148 ∨ 155 < i) :
    ((b.set i v).drop 148).take 8 = (b.drop 148).take 8 := by
  rcases hout with h | h
  · rw [List.drop_set_of_lt v b h]
  · rw [List.drop_set, if_neg (by omega)]
    exact take_set_beyond v _ 8 (i - 148) (by omega)

/-- One iteration of the loop at a block that the scanner accepts: a full
block, not all-zero, with a valid checksum. -/
theorem loop_step_accept (hl sl : Nat) (path : String) (f : FILE) (fuel position : Nat)
    (entries : List TAR_ARCHIVE_ENTRY)
    (hfull : (fread512 f).1.length = 512)
    (hnz : is_end_of_archive (fread512 f).1 = false)
    (hck : verify_checksum (fread512 f).1 = true) :
    ltar_entries_loop hl sl path (fuel + 1) f position entries =
      ltar_entries_loop hl sl path fuel
        (fseek_cur (fread512 f).2 (toLong (align_filesize (declared_size (fread512 f).1))))
        ((position + (align_filesize (declared_size (fread512 f).1) + 512) %
          18446744073709551616) % 18446744073709551616)
        (entries ++ [decode_entry hl sl (fread512 f).1 position]) := by
  rw [ltar_entries_loop]
  simp only [hfull, hnz, hck, lt_irrefl, if_false, Bool.not_true, Bool.false_eq_true,
    declared_size]

/-- The padded size of the spec is the least multiple of 512 that is at least
the size: a multiple of 512, at least the size, and less than 512 above it. -/
theorem padded_least (s : Nat) : padded s % 512 = 0 ∧ s ≤ padded s ∧ padded s < s + 512 := by
  unfold padded
  split <;> omega

/-- The aligned size that the scanner computes is the padded size of the spec
for every size up to `2^64 - 512`. -/
theorem align_filesize_eq_padded (s : Nat) (h : s ≤ 18446744073709551104) :
    align_filesize s = padded s := by
  unfold align_filesize padded
  split
  · rfl
  · exact Nat.mod_eq_of_lt (by omega)

/-- The entries of a sequence of members depend on the headers and on the
lengths of the content regions only, not on the content bytes. -/
theorem members_entries_content_independent (hl sl : Nat) (ms : List (List Nat × List Nat)) :
    ∀ (ms2 : List (List Nat × List Nat)) (off : Nat),
      ms.map (fun m => (m.1, m.2.length)) = ms2.map (fun m => (m.1, m.2.length)) →
      members_entries hl sl off ms = members_entries hl sl off ms2 := by
  induction ms with
  | nil =>
    intro ms2 off h
    cases ms2 with
    | nil => rfl
    | cons m2 ms2 => simp at h
  | cons m ms ih =>
    intro ms2 off h
    cases ms2 with
    | nil => simp at h
    | cons m2 ms2 =>
      simp only [List.map_cons, List.cons.injEq, Prod.mk.injEq] at h
      obtain ⟨⟨h1, h2⟩, h3⟩ := h
      simp only [members_entries, h1, h2]
      rw [ih ms2 _ h3]

/-- A header behind a sequence of well-formed members, in a file shorter than
`2^62` bytes, that declares a size below `2^31` whose padded content region is
at least as long as what is left of the file: the next read returns no byte and
the scan ends in the short read. -/
theorem oversized_member_short_read (hl sl fuel : Nat) (archive : TAR_ARCHIVE)
    (ms : List (List Nat × List Nat)) (hdr rest : List Nat)
    (hopen : archive.closed = false) (hpos : archive.f.pos = 0)
    (hfile : archive.f.content.length < 4611686018427387904)
    (hstream : archive.f.content = members_bytes ms ++ (hdr ++ rest))
    (hms : ∀ m ∈ ms, well_formed_member m)
    (hlen : hdr.length = 512) (hnz : is_end_of_archive hdr = false)
    (hck : verify_checksum hdr = true)
    (hsmall : declared_size hdr < 2147483648)
    (hover : rest.length ≤ padded (declared_size hdr))
    (hfuel : ms.length + 1 < fuel) :
    ltar_entries hl sl fuel archive =
      some (sprintf_push_error (short_read_text archive.path 0),
        { archive with f := { archive.f with
            pos := (members_bytes ms).length + 512 + padded (declared_size hdr) } }) := by
  obtain ⟨k, rfl⟩ : ∃ k, fuel = ms.length + ((k + 1) + 1) := ⟨fuel - ms.length - 2, by omega⟩
  obtain ⟨hscan, hdrop⟩ := ltar_entries_members hl sl ((k + 1) + 1) archive ms (hdr ++ rest)
    hopen hpos (by omega) hstream hms
  have hclen : archive.f.content.length = (members_bytes ms).length + 512 + rest.length := by
    rw [hstream]; simp only [List.length_append, hlen]; omega
  have hpad := padded_least (declared_size hdr)
  have hread : (fread512 ({ archive.f with pos := (members_bytes ms).length } : FILE)).1 = hdr := by
    simp only [fread512]
    rw [hdrop, List.take_left' hlen]
  have hread2 : (fread512 ({ archive.f with pos := (members_bytes ms).length } : FILE)).2 =
      { archive.f with pos := (members_bytes ms).length + 512 } := by
    simp only [fread512]
    rw [hdrop, List.take_left' hlen, hlen]
  have halign : align_filesize (declared_size hdr) = padded (declared_size hdr) :=
    align_filesize_eq_padded _ (by omega)
  have hlong : toLong (padded (declared_size hdr)) = (padded (declared_size hdr) : Int) := by
    unfold toLong; rw [if_pos (by omega)]
  have hseek : fseek_cur ({ archive.f with pos := (members_bytes ms).length + 512 } : FILE)
      (padded (declared_size hdr) : Int) =
      { archive.f with pos := (members_bytes ms).length + 512 + padded (declared_size hdr) } := by
    unfold fseek_cur
    rw [if_neg (by simp only []; omega)]
    simp only [FILE.mk.injEq, true_and]
    omega
  have hnil : archive.f.content.drop
      ((members_bytes ms).length + 512 + padded (declared_size hdr)) = [] :=
    List.drop_eq_nil_of_le (by omega)
  rw [hscan, loop_step_accept hl sl archive.path _ (k + 1) _ _ (by rw [hread]; exact hlen)
    (by rw [hread]; exact hnz) (by rw [hread]; exact hck), hread, hread2, halign, hlong, hseek,
    loop_short_read _ _ _ _ _ _ _ (by simp only []; rw [hnil]; decide)]
  simp only [hnil, List.length_nil, Nat.add_zero, Option.map_some']

/-- One iteration of the loop at an accepted block whose aligned size, taken
as the `long` offset of `fseek`, leads to a negative position: the seek fails,
the stream stays behind the header, and `position` moves on by the aligned
size. -/
theorem loop_step_seek_fails (hl sl : Nat) (path : String) (f : FILE) (fuel position : Nat)
    (entries : List TAR_ARCHIVE_ENTRY) (hdr rest : List Nat)
    (hf : f.content.drop f.pos = hdr ++ rest) (hlen : hdr.length = 512)
    (hnz : is_end_of_archive hdr = false) (hck : verify_checksum hdr = true)
    (hneg : (f.pos : Int) + 512 + toLong (align_filesize (declared_size hdr)) < 0) :
    ltar_entries_loop hl sl path (fuel + 1) f position entries =
      ltar_entries_loop hl sl path fuel { f with pos := f.pos + 512 }
        ((position + (align_filesize (declared_size hdr) + 512) % 18446744073709551616) %
          18446744073709551616)
        (entries ++ [decode_entry hl sl hdr position]) := by
  have hread : (fread512 f).1 = hdr := by
    simp only [fread512]
    rw [hf, List.take_left' hlen]
  have hread2 : (fread512 f).2 = { f with pos := f.pos + 512 } := by
    simp only [fread512]
    rw [hf, List.take_left' hlen, hlen]
  have hseek : fseek_cur ({ f with pos := f.pos + 512 } : FILE)
      (toLong (align_filesize (declared_size hdr))) = { f with pos := f.pos + 512 } := by
    unfold fseek_cur
    rw [if_pos (by left; simp only []; push_cast; omega)]
  rw [loop_step_accept hl sl path f fuel position entries (by rw [hread]; exact hlen)
    (by rw [hread]; exact hnz) (by rw [hread]; exact hck), hread, hread2, hseek]

/-- A run of at least 512 equal bytes starts with a block of 512 of them. -/
theorem replicate_block (n c : Nat) :
    List.replicate (512 + n) c = List.replicate 512 c ++ List.replicate n c :=
  List.replicate_add 512 n c

/-- The first iteration of a scan at the header of the 2 GiB file: the size
field `020000000000` is read as `-2^31` and stored as `2^64 - 2^31`, the seek
by `-2^31` fails, and the next block read is the one right behind the
header. -/
theorem two_gib_header_step (path : String) (rest : List Nat) (fuel : Nat) :
    ltar_entries_loop 49 50 path (fuel + 1) { content := two_gib_header ++ rest, pos := 0 } 0 [] =
      ltar_entries_loop 49 50 path fuel { content := two_gib_header ++ rest, pos := 512 }
        18446744071562068480
        [example_entry [97, 46, 116, 120, 116] 0 18446744071562067968] := by
  have hlong : toLong (align_filesize (declared_size two_gib_header)) = -2147483648 := by
    decide!
  have hstep := loop_step_seek_fails 49 50 path { content := two_gib_header ++ rest, pos := 0 }
    fuel 0 [] two_gib_header rest rfl (by decide!) (by decide!) (by decide!)
    (by rw [hlong]; show ((0 : Nat) : Int) + 512 + -2147483648 < 0; decide)
  have hentry : decode_entry 49 50 two_gib_header 0 =
      example_entry [97, 46, 116, 120, 116] 0 18446744071562067968 := by decide!
  have hposition : (0 + (align_filesize (declared_size two_gib_header) + 512) %
      18446744073709551616) % 18446744073709551616 = 18446744071562068480 := by decide!
  rw [hstep, hentry, hposition]
  rfl

/-- The scan of a file that starts with the header of the 2 GiB file and an
all-zero block right behind it: the block is taken for the end of the archive
and the scan returns the one entry, with the wrapped size. -/
theorem two_gib_scan_zero (path : String) (tail : List Nat) :
    ltar_entries 49 50 2 (opened path (two_gib_header ++ (zero_block ++ tail))) =
      some (.ok [example_entry [97, 46, 116, 120, 116] 0 18446744071562067968],
        { f := { content := two_gib_header ++ (zero_block ++ tail), pos := 1024 },
          path := path, closed := false }) := by
  have h512 : two_gib_header.length = 512 := by decide!
  have hdrop : (two_gib_header ++ (zero_block ++ tail)).drop 512 = zero_block ++ tail :=
    List.drop_left' h512
  rw [ltar_entries_open 49 50 2 (opened path (two_gib_header ++ (zero_block ++ tail))) rfl]
  show Option.map _ (ltar_entries_loop 49 50 path (1 + 1)
    { content := two_gib_header ++ (zero_block ++ tail), pos := 0 } 0 []) = _
  rw [two_gib_header_step path (zero_block ++ tail) 1,
    loop_end_of_archive 49 50 path { content := two_gib_header ++ (zero_block ++ tail), pos := 512 }
      0 _ _ tail hdrop]
  rfl

/-- The scan of a file that starts with the header of the 2 GiB file and,
right behind it, a full block that is neither all-zero nor checksum-valid:
the block is taken for a header and the scan fails. -/
theorem two_gib_scan_bad (path : String) (bad tail : List Nat) (hlen : bad.length = 512)
    (hnz : is_end_of_archive bad = false) (hck : verify_checksum bad = false) :
    ltar_entries 49 50 2 (opened path (two_gib_header ++ (bad ++ tail))) =
      some (.error "Checksum failure",
        { f := { content := two_gib_header ++ (bad ++ tail), pos := 1024 },
          path := path, closed := false }) := by
  have h512 : two_gib_header.length = 512 := by decide!
  have hdrop : (two_gib_header ++ (bad ++ tail)).drop 512 = bad ++ tail :=
    List.drop_left' h512
  rw [ltar_entries_open 49 50 2 (opened path (two_gib_header ++ (bad ++ tail))) rfl]
  show Option.map _ (ltar_entries_loop 49 50 path (1 + 1)
    { content := two_gib_header ++ (bad ++ tail), pos := 0 } 0 []) = _
  rw [two_gib_header_step path (bad ++ tail) 1,
    loop_checksum_failure 49 50 path { content := two_gib_header ++ (bad ++ tail), pos := 512 }
      0 _ _ bad tail hdrop hlen hnz hck]
  rfl

/-! ## The claims -/

/-- The single-member scan for a size that fits the `int` of `parseoct`: a
stream made of one header block that is not all-zero, has a correct checksum,
holds the NUL-terminated name `name` in its name field and a size field for
which `parseoct` returns the natural number `s` (so `s < 2^31`), followed by
the padded content region of `s` and by one all-zero block, scans without
error to exactly one entry, with path `name`, size `s` and headerStart 0. -/
theorem single_member_scan (hl sl : Nat) (archive : TAR_ARCHIVE) (hdr content name : List Nat)
    (s fuel : Nat)
    (hopen : archive.closed = false) (hpos : archive.f.pos = 0)
    (hstream : archive.f.content = hdr ++ content ++ zero_block)
    (hlen : hdr.length = 512) (hnz : is_end_of_archive hdr = false)
    (hck : verify_checksum hdr = true) (hterm : 0 ∈ hdr.drop 157)
    (_hname : name.length < 100) (hnul : ∀ c ∈ name, c ≠ 0)
    (hfield : hdr.take (name.length + 1) = name ++ [0])
    (hsize : parseoct (hdr.drop 124) 12 = (s : Int))
    (hcontent : content.length = padded s)
    (hfuel : 2 ≤ fuel) :
    ltar_entries hl sl fuel archive =
        some (.ok [decode_entry hl sl hdr 0],
          { archive with f := { archive.f with pos := 512 + padded s + 512 } }) ∧
      (decode_entry hl sl hdr 0).path = name ∧
      (decode_entry hl sl hdr 0).size = s ∧
      (decode_entry hl sl hdr 0).headerStart = 0 := by
  have hs : s < 2147483648 := by
    have := (parseoct_range (hdr.drop 124) 12).2
    rw [hsize] at this; omega
  have hdecl : declared_size hdr = s := by
    unfold declared_size toSizeT; rw [hsize]; omega
  have hpad : padded s ≤ s + 511 := by unfold padded; split <;> omega
  have hm : well_formed_member (hdr, content) :=
    ⟨hlen, hnz, hck, by simp only [hdecl, hcontent], hterm⟩
  have hzlen : zero_block.length = 512 := List.length_replicate 512 0
  have hfile : archive.f.content.length < 9223372036854775808 := by
    rw [hstream]; simp only [List.length_append, hlen, hcontent, hzlen]; omega
  have hdrop : archive.f.content.drop archive.f.pos =
      members_bytes [(hdr, content)] ++ zero_block := by
    rw [hpos, hstream]; simp [members_bytes]
  obtain ⟨k, rfl⟩ : ∃ k, fuel = 1 + (k + 1) := ⟨fuel - 2, by omega⟩
  have hloop := loop_members hl sl archive.path [(hdr, content)] archive.f (k + 1) [] zero_block
    (by intro m hmem; simp only [List.mem_singleton] at hmem; rw [hmem]; exact hm) hdrop hfile
  have hend := loop_end_of_archive hl sl archive.path
    { archive.f with pos := archive.f.pos + (members_bytes [(hdr, content)]).length } k
    (archive.f.pos + (members_bytes [(hdr, content)]).length)
    ([] ++ members_entries hl sl archive.f.pos [(hdr, content)]) []
    (by
      have := drop_behind archive.f.content archive.f.pos _ _ hdrop
      simpa using this)
  refine ⟨?_, ?_, ?_, rfl⟩
  · unfold ltar_entries
    simp only [hopen, Bool.false_eq_true, if_false]
    simp only [List.length_singleton] at hloop
    rw [hpos] at hloop hend
    rw [hloop, hend]
    simp [members_entries, members_bytes, hlen, hcontent, hpos]
  · have hsplit : hdr = name ++ 0 :: hdr.drop (name.length + 1) := by
      conv_lhs => rw [← List.take_append_drop (name.length + 1) hdr, hfield]
      simp
    show strdup hdr = name
    rw [hsplit]
    exact strdup_terminated name _ hnul
  · exact hdecl


/-- Example of `single_member_scan`: the archive of the single file `a.txt`
with content `hello` scans to the one entry `a.txt` of size 5 at offset 0. -/
theorem single_member_scan_witness :
    ltar_entries 49 50 2 (opened "a.tar" a_txt_stream) =
        some (.ok [decode_entry 49 50 a_txt_header 0],
          { f := { content := a_txt_stream, pos := 512 + padded 5 + 512 },
            path := "a.tar", closed := false }) ∧
      (decode_entry 49 50 a_txt_header 0).path = [97, 46, 116, 120, 116] ∧
      (decode_entry 49 50 a_txt_header 0).size = 5 ∧
      (decode_entry 49 50 a_txt_header 0).headerStart = 0 :=
  single_member_scan 49 50 (opened "a.tar" a_txt_stream) a_txt_header a_txt_content
    [97, 46, 116, 120, 116] 5 2
    rfl rfl rfl (by decide!) (by decide!) (by decide!) (by decide!) (by decide) (by decide)
    (by decide!) (by decide!) (by decide!) (by decide)

/-- C2, evaluated at a failing input. On `two_entry_stream` the first entry has
size 1000 and the second has headerStart 1536. On `backward_stream` the scan
succeeds with the entries `a`, `b`, `c` in this order: the size field
`37777776000` of `b` wraps to -1024 in the `int` of `parseoct` and becomes
the `size_t` `2^64 - 1024`; the seek goes 1024 bytes backwards, and the third
entry has headerStart 512, not the headerStart of the second plus 512 plus its
padded size. -/
theorem backward_stream_scan :
    ltar_entries 49 50 3 (opened "a.tar" two_entry_stream) =
        some (.ok [example_entry [97] 0 1000, example_entry [98] 1536 5],
          { f := { content := two_entry_stream, pos := 3072 },
            path := "a.tar", closed := false }) ∧
      ltar_entries 49 50 4 (opened "a.tar" backward_stream) =
        some (.ok [example_entry [97] 0 512,
            example_entry [98] 1024 18446744073709550592,
            example_entry [99] 512 512],
          { f := { content := backward_stream, pos := 2048 },
            path := "a.tar", closed := false }) ∧
      512 ≠ 1024 + 512 + padded 18446744073709550592 := by
  decide!

/-- C3, evaluated at a failing input: on `repeated_offset_stream` the scan
succeeds with three entries whose headerStart values are `0`, `2^64 - 512`
and `0`. The size field `37777776000` of the first header wraps to -1024 in
the `int` of `parseoct`; the seek to a negative position fails and `position`
wraps around `2^64`. -/
theorem repeated_offset_scan :
    ltar_entries 49 50 4 (opened "a.tar" repeated_offset_stream) =
      some (.ok [example_entry [97] 0 18446744073709550592,
          example_entry [98] 18446744073709551104 0,
          example_entry [99] 0 0],
        { f := { content := repeated_offset_stream, pos := 2048 },
          path := "a.tar", closed := false }) := by
  decide!

/-- C4, evaluated at a failing input: on a 300-byte file opened under the name
`a.tar` the scan fails with the short-read message that names 512, 300 and
`a.tar`; under a name of 100 bytes the message has 138 bytes and `sprintf`
writes past the end of `char error[130]`. -/
theorem short_read_long_identifier :
    ltar_entries 49 50 1 (opened "a.tar" (List.replicate 300 0)) =
        some (.error "Short read on a.tar: expected 512, got 300\n",
          { f := { content := List.replicate 300 0, pos := 300 },
            path := "a.tar", closed := false }) ∧
      (short_read_text (String.mk (List.replicate 100 'a')) 300).utf8ByteSize = 138 ∧
      ltar_entries 49 50 1 (opened (String.mk (List.replicate 100 'a')) (List.replicate 300 0)) =
        some (.undefined,
          { f := { content := List.replicate 300 0, pos := 300 },
            path := String.mk (List.replicate 100 'a'), closed := false }) := by
  decide!

/-- The checksum failure behind members whose sizes fit the `int` of
`parseoct`: when a sequence of well-formed members is followed by a full
block, not all-zero, that fails `verify_checksum`, the scan returns the error
"Checksum failure" and none of the entries of the headers before it. -/
theorem checksum_failure_scan (hl sl fuel : Nat) (archive : TAR_ARCHIVE)
    (ms : List (List Nat × List Nat)) (bad tail : List Nat)
    (hopen : archive.closed = false) (hpos : archive.f.pos = 0)
    (hfile : archive.f.content.length < 9223372036854775808)
    (hstream : archive.f.content = members_bytes ms ++ (bad ++ tail))
    (hms : ∀ m ∈ ms, well_formed_member m)
    (hlen : bad.length = 512) (hnz : is_end_of_archive bad = false)
    (hck : verify_checksum bad = false) (hfuel : ms.length < fuel) :
    ltar_entries hl sl fuel archive =
      some (.error "Checksum failure",
        { archive with f := { archive.f with pos := (members_bytes ms).length + 512 } }) := by
  obtain ⟨k, rfl⟩ : ∃ k, fuel = ms.length + (k + 1) := ⟨fuel - ms.length - 1, by omega⟩
  obtain ⟨hscan, hdrop⟩ := ltar_entries_members hl sl (k + 1) archive ms (bad ++ tail) hopen hpos
    hfile hstream hms
  rw [hscan, loop_checksum_failure _ _ _ _ _ _ _ bad tail hdrop hlen hnz hck]
  rfl

/-- Example of `checksum_failure_scan`: the member `a.txt`, then a block of 512
bytes of value 1, then three more bytes. -/
theorem checksum_failure_scan_witness :
    ltar_entries 49 50 2 (opened "a.tar" corrupt_stream) =
      some (.error "Checksum failure",
        { f := { content := corrupt_stream,
                 pos := (members_bytes [(a_txt_header, a_txt_content)]).length + 512 },
          path := "a.tar", closed := false }) :=
  checksum_failure_scan 49 50 2 (opened "a.tar" corrupt_stream)
    [(a_txt_header, a_txt_content)] (List.replicate 512 1) [1, 2, 3]
    rfl rfl (by decide!) rfl (by decide!) (by decide!) (by decide!) (by decide!) (by decide)

/-- The scan up to the all-zero block for members whose sizes fit the `int` of
`parseoct`: when a sequence of well-formed members is followed by an all-zero
block, the scan succeeds and returns exactly the entries of their headers in
archive order, whatever follows the all-zero block; a stream that is exactly
one all-zero block is the case of no member and no trailing byte, and scans to
the empty sequence. -/
theorem scan_to_zero_block (hl sl fuel : Nat) (archive : TAR_ARCHIVE)
    (ms : List (List Nat × List Nat)) (tail : List Nat)
    (hopen : archive.closed = false) (hpos : archive.f.pos = 0)
    (hfile : archive.f.content.length < 9223372036854775808)
    (hstream : archive.f.content = members_bytes ms ++ (zero_block ++ tail))
    (hms : ∀ m ∈ ms, well_formed_member m) (hfuel : ms.length < fuel) :
    ltar_entries hl sl fuel archive =
      some (.ok (members_entries hl sl 0 ms),
        { archive with f := { archive.f with pos := (members_bytes ms).length + 512 } }) := by
  obtain ⟨k, rfl⟩ : ∃ k, fuel = ms.length + (k + 1) := ⟨fuel - ms.length - 1, by omega⟩
  obtain ⟨hscan, hdrop⟩ := ltar_entries_members hl sl (k + 1) archive ms (zero_block ++ tail)
    hopen hpos hfile hstream hms
  rw [hscan, loop_end_of_archive _ _ _ _ _ _ _ tail hdrop]
  rfl

/-- Example of `scan_to_zero_block`: the stream that is exactly one all-zero
block scans to no entry, and the members `a.txt` (size 5) and `b` (empty)
followed by an all-zero block and three more bytes scan to their two entries,
at offsets 0 and 1024. -/
theorem scan_to_zero_block_witness :
    ltar_entries 49 50 1 (opened "a.tar" zero_block) =
        some (.ok [],
          { f := { content := zero_block, pos := 512 }, path := "a.tar", closed := false }) ∧
      ltar_entries 49 50 3 (opened "a.tar" two_member_stream) =
        some (.ok (members_entries 49 50 0 [(a_txt_header, a_txt_content), (b_empty_header, [])]),
          { f := { content := two_member_stream,
                   pos := (members_bytes
                     [(a_txt_header, a_txt_content), (b_empty_header, [])]).length + 512 },
            path := "a.tar", closed := false }) ∧
      members_entries 49 50 0 [(a_txt_header, a_txt_content), (b_empty_header, [])] =
        [example_entry [97, 46, 116, 120, 116] 0 5, example_entry [98] 1024 0] :=
  ⟨scan_to_zero_block 49 50 1 (opened "a.tar" zero_block) [] []
    rfl rfl (by decide!) (by decide!) (by decide) (by decide),
   scan_to_zero_block 49 50 3 (opened "a.tar" two_member_stream)
    [(a_txt_header, a_txt_content), (b_empty_header, [])] [1, 2, 3]
    rfl rfl (by decide!) rfl (by decide!) (by decide),
   by decide!⟩

/-- C7: on a handle whose state is Closed, `ltar_entries` fails with "archive
is closed" whatever the fuel, so before any iteration of the loop, and the
handle with its stream and position comes back unchanged; hence after open,
scan, close, the second scan fails with that error. -/
theorem closed_handle_scan (hl sl fuel : Nat) :
    (∀ archive : TAR_ARCHIVE, archive.closed = true →
      ltar_entries hl sl fuel archive = some (.error "archive is closed", archive)) ∧
    (∀ (fs : String → Option (List Nat)) (path : String) (handle scanned : TAR_ARCHIVE)
      (fuel1 : Nat) (r : Outcome (List TAR_ARCHIVE_ENTRY)),
      ltar_open fs path = .ok handle →
      ltar_entries hl sl fuel1 handle = some (r, scanned) →
      ltar_entries hl sl fuel (ltar_close scanned).1 =
        some (.error "archive is closed", (ltar_close scanned).1)) := by
  have hclosed : ∀ archive : TAR_ARCHIVE, archive.closed = true →
      ltar_entries hl sl fuel archive = some (.error "archive is closed", archive) := by
    intro archive h
    unfold ltar_entries
    simp [h]
  refine ⟨hclosed, ?_⟩
  intro fs path handle scanned fuel1 r _ _
  apply hclosed
  unfold ltar_close
  cases h : scanned.closed <;> simp [h]

/-- Witness of C7: open the archive of `a.txt`, scan it, close it, scan
again. -/
theorem closed_handle_scan_witness :
    ltar_entries 49 50 0
        (ltar_close { f := { content := a_txt_stream, pos := 1536 },
                      path := "a.tar", closed := false }).1 =
      some (.error "archive is closed",
        (ltar_close { f := { content := a_txt_stream, pos := 1536 },
                      path := "a.tar", closed := false }).1) :=
  (closed_handle_scan 49 50 0).2
    (fun p => if p = "a.tar" then some a_txt_stream else none) "a.tar"
    (opened "a.tar" a_txt_stream)
    { f := { content := a_txt_stream, pos := 1536 }, path := "a.tar", closed := false } 2
    (.ok [example_entry [97, 46, 116, 120, 116] 0 5]) (by decide!) (by decide!)

/-- C8: `ltar_close` is idempotent. Closing leaves the handle Closed; closing a
Closed handle changes nothing and releases nothing; over any sequence of
`n + 1` calls the handle ends as after the first call, and the path and the
stream are released exactly once when the handle was open at the start, never
when it was closed. -/
theorem ltar_close_idempotent (archive : TAR_ARCHIVE) (n : Nat) :
    (ltar_close archive).1.closed = true ∧
    (archive.closed = true → ltar_close archive = (archive, [])) ∧
    ltar_close (ltar_close archive).1 = ((ltar_close archive).1, []) ∧
    (close_calls (n + 1) archive).1 = (ltar_close archive).1 ∧
    (close_calls (n + 1) archive).2 =
      (if archive.closed then [] else [Release.free_path, Release.fclose_f]) := by
  have h1 : (ltar_close archive).1.closed = true := by
    unfold ltar_close
    cases h : archive.closed <;> simp [h]
  have h2 : ∀ a : TAR_ARCHIVE, a.closed = true → ltar_close a = (a, []) := by
    intro a h; unfold ltar_close; simp [h]
  refine ⟨h1, h2 archive, h2 _ h1, ?_, ?_⟩
  · simp only [close_calls, close_calls_closed n _ h1]
  · simp only [close_calls, close_calls_closed n _ h1, List.append_nil]
    unfold ltar_close
    cases h : archive.closed <;> simp


/-- Witness of C8: three calls of `ltar_close` on a freshly opened handle
release the path and the stream once, and a call on a closed handle changes
nothing and releases nothing. -/
theorem ltar_close_idempotent_witness :
    (close_calls 3 (opened "a.tar" zero_block)).2 = [Release.free_path, Release.fclose_f] ∧
      ltar_close { f := { content := zero_block, pos := 512 }, path := "a.tar", closed := true } =
        ({ f := { content := zero_block, pos := 512 }, path := "a.tar", closed := true }, []) :=
  ⟨(ltar_close_idempotent (opened "a.tar" zero_block) 2).2.2.2.2,
   (ltar_close_idempotent
      { f := { content := zero_block, pos := 512 }, path := "a.tar", closed := true } 0).2.1 rfl⟩

/-- C9, evaluated at a failing input: `2^31` lies in `[0, 8^12 - 1]`, its
twelve zero-padded octal digits are `020000000000`, and `parseoct` returns
`-2^31` for them, the accumulator being an `int`. -/
theorem octal_round_trip_wraps :
    2147483648 ≤ 8 ^ 12 - 1 ∧
      octal_field 12 2147483648 = [48, 50, 48, 48, 48, 48, 48, 48, 48, 48, 48, 48] ∧
      parseoct (octal_field 12 2147483648) 12 = -2147483648 := by
  decide!

/-- C10, evaluated at a failing input. The 8-byte field of two spaces, `755` and
NULs parses to 493. In the 12-byte field `37777777777\0` the run of octal
digits has the base-8 value `2^32 - 1`, and `parseoct` returns `-1`. -/
theorem octal_run_wraps :
    parseoct [32, 32, 55, 53, 53, 0, 0, 0] 8 = 493 ∧
      octal_value [51, 55, 55, 55, 55, 55, 55, 55, 55, 55, 55] = 4294967295 ∧
      parseoct [51, 55, 55, 55, 55, 55, 55, 55, 55, 55, 55, 0] 12 = -1 := by
  decide!


/-- C11: on a 512-byte block `verify_checksum` is true exactly when the sum of
the bytes 0..147 and 156..511 plus `8 * 0x20` equals `parseoct` of the eight
bytes at offsets 148..155; the bytes 148..155 enter the result through that
decode only, so two blocks that agree outside the field and whose fields
decode alike are judged alike. -/
theorem verify_checksum_characterised (b : List Nat) (hlen : b.length = 512) :
    (verify_checksum b = true ↔
      (((b.take 148).sum + (b.drop 156).sum + 8 * 32 : Nat) : Int) =
        parseoct ((b.drop 148).take 8) 8) ∧
    ∀ b2 : List Nat, b2.length = 512 → b2.take 148 = b.take 148 → b2.drop 156 = b.drop 156 →
      parseoct ((b2.drop 148).take 8) 8 = parseoct ((b.drop 148).take 8) 8 →
      verify_checksum b2 = verify_checksum b := by
  refine ⟨?_, ?_⟩
  · rw [verify_checksum_eq b hlen, decide_eq_true_iff]
  · intro b2 hlen2 h1 h2 h3
    rw [verify_checksum_eq b hlen, verify_checksum_eq b2 hlen2, h1, h2, h3]

/-- Witness of C11: the header of `a.txt`, whose bytes outside the checksum
field sum to 1426 and whose checksum field `003222` decodes to 1682. -/
theorem verify_checksum_characterised_witness :
    verify_checksum a_txt_header = true ∧
      (a_txt_header.take 148).sum + (a_txt_header.drop 156).sum = 1426 ∧
      parseoct ((a_txt_header.drop 148).take 8) 8 = 1682 :=
  ⟨(verify_checksum_characterised a_txt_header (by decide!)).1.2 (by decide!),
   by decide!, by decide!⟩

/-- C12: in a 512-byte block with a valid checksum, replacing the byte at an
index `i` outside 148..155 by any different value gives a block on which
`verify_checksum` is false. -/
theorem checksum_detects_byte_change (b : List Nat) (i v : Nat) (hlen : b.length = 512)
    (hck : verify_checksum b = true) (hi : i < 512) (hout : i < 148 ∨ 155 < i)
    (hv : v ≠ b.getD i 0) :
    verify_checksum (b.set i v) = false := by
  have hlen2 : (b.set i v).length = 512 := by rw [List.length_set]; exact hlen
  have hsum := checksum_loop_set v b 0 0 i (by omega) (by omega)
  have hfield : parseoct ((b.set i v).drop 148) 8 = parseoct (b.drop 148) 8 := by
    rw [← parseoct_take ((b.set i v).drop 148), ← parseoct_take (b.drop 148),
      checksum_field_set v b i hout]
  unfold verify_checksum at hck ⊢
  rw [decide_eq_true_iff, List.take_of_length_le (by omega)] at hck
  rw [decide_eq_false_iff_not, List.take_of_length_le (by omega), hfield, ← hck]
  intro h
  rw [h] at hsum
  exact hv (by omega)

/-- Witness of C12: the first byte of the header of `a.txt` changed from `a`
to `b`. -/
theorem checksum_detects_byte_change_witness :
    verify_checksum (a_txt_header.set 0 98) = false :=
  checksum_detects_byte_change a_txt_header 0 98 (by decide!) (by decide!) (by decide)
    (by decide) (by decide!)

/-- C13: on a 512-byte block `is_end_of_archive` is true exactly when every
byte is zero; a block with a non-zero byte at any index 0..511, be it the only
one, is not detected. -/
theorem is_end_of_archive_characterised (b : List Nat) (hlen : b.length = 512) :
    (is_end_of_archive b = true ↔ ∀ c ∈ b, c = 0) ∧
    ∀ i : Nat, i < 512 → b.getD i 0 ≠ 0 → is_end_of_archive b = false := by
  refine ⟨is_end_of_archive_eq b hlen, ?_⟩
  intro i hi hne
  rw [← Bool.not_eq_true, is_end_of_archive_eq b hlen]
  intro hall
  apply hne
  rw [List.getD_eq_getElem _ _ (by omega)]
  exact hall _ (List.getElem_mem _)

/-- Witness of C13: the all-zero block is detected, the block whose only
non-zero byte is the last one is not. -/
theorem is_end_of_archive_characterised_witness :
    is_end_of_archive zero_block = true ∧ is_end_of_archive (zero_block.set 511 1) = false :=
  ⟨(is_end_of_archive_characterised zero_block (by decide!)).1.2 (by decide!),
   (is_end_of_archive_characterised (zero_block.set 511 1) (by decide!)).2 511 (by decide)
     (by decide!)⟩


/-- C15: for a block that the scanner accepts, the entry it appends has the
byte 156 of the block as its type, and a link target exactly when that type
is `TAR_HARDLINK` or `TAR_SYMLINK` (then the string at offset 157); for every
other type byte the link target is absent, whatever the bytes from 157 on. -/
theorem entry_type_and_link (hl sl : Nat) (path : String) (f : FILE) (fuel position : Nat)
    (entries : List TAR_ARCHIVE_ENTRY)
    (hfull : (fread512 f).1.length = 512)
    (hnz : is_end_of_archive (fread512 f).1 = false)
    (hck : verify_checksum (fread512 f).1 = true) :
    ltar_entries_loop hl sl path (fuel + 1) f position entries =
        ltar_entries_loop hl sl path fuel
          (fseek_cur (fread512 f).2 (toLong (align_filesize (declared_size (fread512 f).1))))
          ((position + (align_filesize (declared_size (fread512 f).1) + 512) %
            18446744073709551616) % 18446744073709551616)
          (entries ++ [decode_entry hl sl (fread512 f).1 position]) ∧
      (decode_entry hl sl (fread512 f).1 position).type = (fread512 f).1.getD 156 0 ∧
      ((decode_entry hl sl (fread512 f).1 position).linkpath.isSome = true ↔
        ((fread512 f).1.getD 156 0 = hl ∨ (fread512 f).1.getD 156 0 = sl)) ∧
      (((fread512 f).1.getD 156 0 = hl ∨ (fread512 f).1.getD 156 0 = sl) →
        (decode_entry hl sl (fread512 f).1 position).linkpath =
          some (strdup ((fread512 f).1.drop 157))) ∧
      (¬ ((fread512 f).1.getD 156 0 = hl ∨ (fread512 f).1.getD 156 0 = sl) →
        (decode_entry hl sl (fread512 f).1 position).linkpath = none) := by
  refine ⟨loop_step_accept hl sl path f fuel position entries hfull hnz hck, rfl, ?_, ?_, ?_⟩
  · unfold decode_entry
    by_cases h : (fread512 f).1.getD 156 0 = hl ∨ (fread512 f).1.getD 156 0 = sl
    · simp [h]
    · simp [h]
  · intro h; unfold decode_entry; simp only [if_pos h]
  · intro h; unfold decode_entry; simp only [if_neg h]

/-- Witness of C15: the header of the symbolic link `l` yields type `'2'` and
the link target `a.txt`; the header of `a.txt` yields type `'0'` and no link
target. -/
theorem entry_type_and_link_witness :
    ((decode_entry 49 50 (fread512 (opened "a.tar" (link_header ++ zero_block)).f).1 0).type =
        (fread512 (opened "a.tar" (link_header ++ zero_block)).f).1.getD 156 0 ∧
      (decode_entry 49 50 (fread512 (opened "a.tar" (link_header ++ zero_block)).f).1 0).linkpath
        = some (strdup ((fread512 (opened "a.tar" (link_header ++ zero_block)).f).1.drop 157))) ∧
    (decode_entry 49 50 (fread512 (opened "a.tar" a_txt_stream).f).1 0).linkpath = none ∧
    decode_entry 49 50 link_header 0 =
      { path := [108], type := 50, linkpath := some [97, 46, 116, 120, 116], headerStart := 0,
        readPosition := 0, size := 0, mode := 420 } :=
  ⟨⟨(entry_type_and_link 49 50 "a.tar" (opened "a.tar" (link_header ++ zero_block)).f 0 0 []
      (by decide!) (by decide!) (by decide!)).2.1,
    (entry_type_and_link 49 50 "a.tar" (opened "a.tar" (link_header ++ zero_block)).f 0 0 []
      (by decide!) (by decide!) (by decide!)).2.2.2.1 (by decide!)⟩,
   (entry_type_and_link 49 50 "a.tar" (opened "a.tar" a_txt_stream).f 0 0 []
      (by decide!) (by decide!) (by decide!)).2.2.2.2 (by decide!),
   by decide!⟩

/-- C20: a 512-byte block on which `is_end_of_archive` is true fails
`verify_checksum`: its sum is 256 and its checksum field decodes to 0. The
scan tests for the end of the archive first, so at such a block it ends with
the entries collected so far and raises no checksum error. -/
theorem end_of_archive_fails_checksum (b : List Nat) (hlen : b.length = 512)
    (heoa : is_end_of_archive b = true) :
    checksum_loop (b.take 512) 0 0 = 256 ∧ parseoct (b.drop 148) 8 = 0 ∧
      verify_checksum b = false ∧
      ∀ (hl sl : Nat) (path : String) (f : FILE) (fuel position : Nat)
        (entries : List TAR_ARCHIVE_ENTRY) (tail : List Nat),
        f.content.drop f.pos = b ++ tail →
        ltar_entries_loop hl sl path (fuel + 1) f position entries =
          some (.ok entries, { f with pos := f.pos + 512 }) := by
  have hb : b = zero_block := by
    have hall := (is_end_of_archive_eq b hlen).1 heoa
    unfold zero_block
    rw [← hlen]
    exact List.eq_replicate_iff.2 ⟨rfl, hall⟩
  subst hb
  refine ⟨by decide!, by decide!, by decide!, ?_⟩
  intro hl sl path f fuel position entries tail hf
  exact loop_end_of_archive hl sl path f fuel position entries tail hf

/-- Witness of C20: the all-zero block, and the scan of the archive that
consists of it. -/
theorem end_of_archive_fails_checksum_witness :
    verify_checksum zero_block = false ∧
      ltar_entries_loop 49 50 "a.tar" (0 + 1) { content := zero_block, pos := 0 } 0 [] =
        some (.ok [], { content := zero_block, pos := 0 + 512 }) :=
  ⟨(end_of_archive_fails_checksum zero_block (by decide!) (by decide!)).2.2.1,
   (end_of_archive_fails_checksum zero_block (by decide!) (by decide!)).2.2.2 49 50 "a.tar"
     { content := zero_block, pos := 0 } 0 0 [] [] (by decide!)⟩


/-- C14, evaluated at a failing input. The aligned sizes of 0, 1, 512 and 513
are 0, 512, 512 and 1024. The header `a_minus_one_header` is accepted; its
size field `37777777777` is read as -1 by `parseoct` and declares the
`size_t` size `2^64 - 1`, for which `(filesize / 512 + 1) * 512` wraps to 0:
the scanner skips no byte. -/
theorem padding_wraps :
    align_filesize 0 = 0 ∧ align_filesize 1 = 512 ∧ align_filesize 512 = 512 ∧
      align_filesize 513 = 1024 ∧
      is_end_of_archive a_minus_one_header = false ∧
      verify_checksum a_minus_one_header = true ∧
      declared_size a_minus_one_header = 18446744073709551615 ∧
      align_filesize (declared_size a_minus_one_header) = 0 := by
  decide!

/-- C16, evaluated at a failing input: the header of `long_name_stream` holds
100 bytes `a` in its name field, and the path of the entry has 107 bytes, the
100 of the name followed by the digits `0000644` of the mode field. -/
theorem path_runs_into_mode_field :
    ltar_entries 49 50 2 (opened "a.tar" long_name_stream) =
        some (.ok [{ path := List.replicate 100 97 ++ [48, 48, 48, 48, 54, 52, 52], type := 48,
                     linkpath := none, headerStart := 0, readPosition := 0, size := 0,
                     mode := 420 }],
          { f := { content := long_name_stream, pos := 1024 },
            path := "a.tar", closed := false }) ∧
      (List.replicate 100 97 ++ [48, 48, 48, 48, 54, 52, 52]).length = 107 := by
  decide!

/-- C18, evaluated at a failing input: the header of `oversized_stream` declares
the size `2^64 - 1`, whose padded content region is longer than the 512 bytes
that follow the header, and the scan succeeds with one entry. -/
theorem oversized_size_scan :
    ltar_entries 49 50 2 (opened "a.tar" oversized_stream) =
        some (.ok [example_entry [97] 0 18446744073709551615],
          { f := { content := oversized_stream, pos := 1024 },
            path := "a.tar", closed := false }) ∧
      oversized_stream.length - 512 ≤ padded 18446744073709551615 := by
  decide!

/-- C19, evaluated at a failing input: `backward_stream` and
`backward_stream_blank` have the same length and differ only in the bytes
512..1023, the content region of the first header, which declares the size
512; the first scans to the entries `a`, `b`, `c`, the second to `a`, `b`. -/
theorem content_block_read_as_header :
    backward_stream.length = backward_stream_blank.length ∧
      backward_stream.take 512 = backward_stream_blank.take 512 ∧
      backward_stream.drop 1024 = backward_stream_blank.drop 1024 ∧
      declared_size (backward_stream.take 512) = 512 ∧
      (ltar_entries 49 50 4 (opened "a.tar" backward_stream)).map (fun r => r.1) =
        some (.ok [example_entry [97] 0 512,
          example_entry [98] 1024 18446744073709550592,
          example_entry [99] 512 512]) ∧
      (ltar_entries 49 50 4 (opened "a.tar" backward_stream_blank)).map (fun r => r.1) =
        some (.ok [example_entry [97] 0 512,
          example_entry [98] 1024 18446744073709550592]) := by
  decide!


/-- C17, evaluated at a failing input: on `looping_stream` the scan returns for
no amount of fuel. The header is accepted; its size field `37777777000` is
read as -512, the seek goes 512 bytes backwards, and after the iteration the
stream is at position 0 again with `position = 0`, before the same header. -/
theorem scan_never_returns :
    (∀ fuel : Nat, ltar_entries 49 50 fuel (opened "a.tar" looping_stream) = none) ∧
      fseek_cur (fread512 { content := looping_stream, pos := 0 }).2
        (toLong (align_filesize
          (declared_size (fread512 { content := looping_stream, pos := 0 }).1))) =
        { content := looping_stream, pos := 0 } := by
  have hfull : (fread512 { content := looping_stream, pos := 0 }).1.length = 512 := by decide!
  have hnz : is_end_of_archive (fread512 { content := looping_stream, pos := 0 }).1 = false := by
    decide!
  have hck : verify_checksum (fread512 { content := looping_stream, pos := 0 }).1 = true := by
    decide!
  have hseek : fseek_cur (fread512 { content := looping_stream, pos := 0 }).2
      (toLong (align_filesize
        (declared_size (fread512 { content := looping_stream, pos := 0 }).1))) =
      { content := looping_stream, pos := 0 } := by decide!
  have hposition : (0 + (align_filesize
      (declared_size (fread512 { content := looping_stream, pos := 0 }).1) + 512) %
      18446744073709551616) % 18446744073709551616 = 0 := by decide!
  have hloop : ∀ (fuel : Nat) (entries : List TAR_ARCHIVE_ENTRY),
      ltar_entries_loop 49 50 "a.tar" fuel { content := looping_stream, pos := 0 } 0 entries =
        none := by
    intro fuel
    induction fuel with
    | zero => intro entries; rfl
    | succ n ih =>
      intro entries
      rw [loop_step_accept 49 50 "a.tar" _ n 0 entries hfull hnz hck, hseek, hposition]
      exact ih _
  refine ⟨fun fuel => ?_, hseek⟩
  unfold ltar_entries opened
  simp only [Bool.false_eq_true, if_false, hloop]


/-- C1, evaluated at a failing input. `two_gib_zero_stream` is a header that
is not all-zero, has a correct checksum, holds the NUL-terminated name `a.txt`
and a size field whose octal digits have the value `s = 2^31`, followed by
`2^31 = padded s` content bytes and one all-zero block. The scan returns one
entry whose size is `2^64 - 2^31`, not `s`: `parseoct` wraps the size in its
`int`, the seek over the content fails, and the scan ends at the first
content block, 1024 bytes into the file. -/
theorem two_gib_member_scan :
    is_end_of_archive two_gib_header = false ∧ verify_checksum two_gib_header = true ∧
      two_gib_header.take 6 = [97, 46, 116, 120, 116, 0] ∧
      octal_value ((two_gib_header.drop 124).take 12) = 2147483648 ∧
      (List.replicate 2147483648 0).length = padded 2147483648 ∧
      ltar_entries 49 50 2 (opened "a.tar" two_gib_zero_stream) =
        some (.ok [example_entry [97, 46, 116, 120, 116] 0 18446744071562067968],
          { f := { content := two_gib_zero_stream, pos := 1024 },
            path := "a.tar", closed := false }) ∧
      18446744071562067968 ≠ 2147483648 := by
  have hstream : two_gib_zero_stream =
      two_gib_header ++ (zero_block ++ (List.replicate 2147483136 0 ++ zero_block)) := by
    show two_gib_header ++ List.replicate (512 + 2147483136) 0 ++ zero_block = _
    rw [replicate_block, List.append_assoc, List.append_assoc]
    rfl
  refine ⟨by decide!, by decide!, by decide!, by decide!, ?_, ?_, by decide⟩
  · rw [List.length_replicate]; decide
  · rw [hstream]
    exact two_gib_scan_zero "a.tar" _

/-- C5, evaluated at a failing input. In `two_gib_corrupt_stream` the header
of the 2 GiB file is checksum-valid, and the block at the next header
position, behind the `2^31` content bytes, is a full block of bytes 1 that is
not all-zero and fails `verify_checksum`. The scan does not return "Checksum
failure": the seek over the content fails, the first content block, which is
all-zero, is taken for the end of the archive, and the scan returns the
entry. -/
theorem two_gib_corrupt_scan :
    is_end_of_archive two_gib_header = false ∧ verify_checksum two_gib_header = true ∧
      octal_value ((two_gib_header.drop 124).take 12) = 2147483648 ∧
      two_gib_corrupt_stream.drop (512 + padded 2147483648) = List.replicate 512 1 ∧
      is_end_of_archive (List.replicate 512 1) = false ∧
      verify_checksum (List.replicate 512 1) = false ∧
      ltar_entries 49 50 2 (opened "a.tar" two_gib_corrupt_stream) =
        some (.ok [example_entry [97, 46, 116, 120, 116] 0 18446744071562067968],
          { f := { content := two_gib_corrupt_stream, pos := 1024 },
            path := "a.tar", closed := false }) := by
  have h512 : two_gib_header.length = 512 := by decide!
  have hpad : padded 2147483648 = 2147483648 := by decide
  have hstream : two_gib_corrupt_stream =
      two_gib_header ++ (zero_block ++ (List.replicate 2147483136 0 ++ List.replicate 512 1)) := by
    show two_gib_header ++ List.replicate (512 + 2147483136) 0 ++ List.replicate 512 1 = _
    rw [replicate_block, List.append_assoc, List.append_assoc]
    rfl
  refine ⟨by decide!, by decide!, by decide!, ?_, by decide!, by decide!, ?_⟩
  · rw [hpad]
    exact List.drop_left' (by rw [List.length_append, List.length_replicate, h512])
  · rw [hstream]
    exact two_gib_scan_zero "a.tar" _

/-- C6, evaluated at a failing input. In `two_gib_ones_stream` the block at
header position 0 is a checksum-valid header that is not all-zero, and the
block at the next header position, behind the `2^31` content bytes, is
all-zero. The scan does not return the entry of the header: the seek over the
content fails, the first content block is taken for a header and the scan ends
in "Checksum failure". -/
theorem two_gib_ones_scan :
    is_end_of_archive two_gib_header = false ∧ verify_checksum two_gib_header = true ∧
      octal_value ((two_gib_header.drop 124).take 12) = 2147483648 ∧
      two_gib_ones_stream.drop (512 + padded 2147483648) = zero_block ∧
      ltar_entries 49 50 2 (opened "a.tar" two_gib_ones_stream) =
        some (.error "Checksum failure",
          { f := { content := two_gib_ones_stream, pos := 1024 },
            path := "a.tar", closed := false }) := by
  have h512 : two_gib_header.length = 512 := by decide!
  have hpad : padded 2147483648 = 2147483648 := by decide
  have hstream : two_gib_ones_stream =
      two_gib_header ++ (List.replicate 512 1 ++ (List.replicate 2147483136 1 ++ zero_block)) := by
    show two_gib_header ++ List.replicate (512 + 2147483136) 1 ++ zero_block = _
    rw [replicate_block, List.append_assoc, List.append_assoc]
  refine ⟨by decide!, by decide!, by decide!, ?_, ?_⟩
  · rw [hpad]
    exact List.drop_left' (by rw [List.length_append, List.length_replicate, h512])
  · rw [hstream]
    exact two_gib_scan_bad "a.tar" _ _ (by decide!) (by decide!) (by decide!)

end LTar
